import Mathlib

/-!
Verification of the autofs-gui repository's core algorithms: the autofs
map/master file builder, the map-file parser, master-option parsing, the
sudo runner's interactive retry loop, the host-discovery cache, the
fuse.conf `user_allow_other` enabler, and the CLI's exit-code behaviour.

Python strings are modelled as `List Char`; Python string operations
(`strip`, `split`, `rsplit`, `splitlines`, `replace`, substring `in`,
`startswith`, `int(...)`, `str.lower`) are given faithful executable
definitions over that model (restricted to the ASCII range, which is all
the hypotheses of the theorems below ever use).
-/

/-- Python strings, modelled as lists of characters. -/
abbrev PyStr := List Char

/-- Coerce a Lean string literal into the model. -/
def S (s : String) : PyStr := s.data

/-- The ASCII whitespace characters recognised by Python's `str.strip()` /
`str.split()` / `str.isspace()` (`0x1c`-`0x1f` are also whitespace for
CPython; non-ASCII whitespace is irrelevant here because every theorem
hypothesis restricts the data to ASCII). -/
def pyIsSpace (c : Char) : Bool :=
  c = ' ' || c = '\t' || c = '\n' || c = '\r' || c = '\x0b' || c = '\x0c' ||
  c = '\x1c' || c = '\x1d' || c = '\x1e' || c = '\x1f'

/-- The ASCII line separators recognised by Python's `str.splitlines()`
(beyond these, CPython also splits on `\x85`, ` `, ` `, which are
non-ASCII and excluded by the ASCII hypotheses used below). -/
def isLineSep (c : Char) : Bool :=
  c = '\n' || c = '\r' || c = '\x0b' || c = '\x0c' ||
  c = '\x1c' || c = '\x1d' || c = '\x1e'

/-- `s.strip()`: drop leading and trailing whitespace. -/
def pyStrip (s : PyStr) : PyStr :=
  ((s.dropWhile pyIsSpace).reverse.dropWhile pyIsSpace).reverse

/-- `pat.isPrefixOf s` (executable, by direct recursion). -/
def pyIsPre : PyStr → PyStr → Bool
  | [], _ => true
  | _ :: _, [] => false
  | p :: pt, c :: ct => p = c && pyIsPre pt ct

/-- Python's substring test `pat in s`. -/
def pyContains (s pat : PyStr) : Bool :=
  match s with
  | [] => pyIsPre pat []
  | _ :: t => pyIsPre pat s || pyContains t pat

/-- Python's single-character membership test `c in s`. -/
def pyHasChar (s : PyStr) (c : Char) : Bool :=
  match s with
  | [] => false
  | a :: t => a = c || pyHasChar t c

/-- `s.split(sep, 1)` when it yields two pieces; `none` models the
single-piece result (which makes a two-name unpacking raise). -/
def pySplitFirst (sep : Char) : PyStr → Option (PyStr × PyStr)
  | [] => none
  | c :: t =>
    if c = sep then some ([], t)
    else (pySplitFirst sep t).map (fun p => (c :: p.1, p.2))

/-- `s.rsplit(sep, 1)` when it yields two pieces (split at the last
occurrence of `sep`). -/
def pyRSplitLast (sep : Char) (s : PyStr) : Option (PyStr × PyStr) :=
  (pySplitFirst sep s.reverse).map (fun p => (p.2.reverse, p.1.reverse))

/-- `s.split(sep)` (full split, keeping empty pieces; `"".split(sep) = [""]`). -/
def pySplitAll (sep : Char) : PyStr → List PyStr
  | [] => [[]]
  | c :: t =>
    if c = sep then [] :: pySplitAll sep t
    else
      match pySplitAll sep t with
      | [] => [[c]]
      | h :: r => (c :: h) :: r

/-- `s.splitlines()`: split on line separators, pairing `\r\n`, with no
trailing empty line for a trailing separator. -/
def pySplitlines : PyStr → List PyStr
  | [] => []
  | '\r' :: '\n' :: t2 => [] :: pySplitlines t2
  | c :: t =>
    if isLineSep c then [] :: pySplitlines t
    else
      match pySplitlines t with
      | [] => [[c]]
      | h :: r => (c :: h) :: r

/-- `s.split()` (no argument): split on whitespace runs, no empty pieces. -/
def pySplitWS (s : PyStr) : List PyStr :=
  (s.splitOnP pyIsSpace).filter (fun t => t ≠ [])

/-- Fuel-indexed worker for `pyReplace` (fuel bounds the input length, so
the recursion is structural and kernel-reducible). -/
def pyReplaceAux (pat rep : PyStr) : Nat → PyStr → PyStr
  | _, [] => []
  | 0, s => s
  | fuel + 1, c :: t =>
    if pat ≠ [] ∧ pyIsPre pat (c :: t) then
      rep ++ pyReplaceAux pat rep fuel (t.drop (pat.length - 1))
    else
      c :: pyReplaceAux pat rep fuel t

/-- `s.replace(pat, rep)` for non-empty `pat`: scan left to right replacing
non-overlapping occurrences (for empty `pat` — never used here — this
model leaves `s` unchanged). -/
def pyReplace (pat rep s : PyStr) : PyStr :=
  pyReplaceAux pat rep s.length s

/-- `s.lower()` (ASCII). -/
def pyLower (s : PyStr) : PyStr := s.map Char.toLower

/-- Fuel-indexed worker for `natToStr`. -/
def natToStrAux : Nat → Nat → PyStr
  | 0, _ => []
  | fuel + 1, n =>
    if n < 10 then [Nat.digitChar n]
    else natToStrAux fuel (n / 10) ++ [Nat.digitChar (n % 10)]

/-- Decimal digits of a natural number, as characters. -/
def natToStr (n : Nat) : PyStr := natToStrAux (n + 1) n

/-- `str(n)` for a Python int. -/
def pyIntToStr (n : Int) : PyStr :=
  if n < 0 then '-' :: natToStr (-n).toNat else natToStr n.toNat

/-- ASCII decimal digit test. -/
def pyIsDigit (c : Char) : Bool := 48 ≤ c.toNat && c.toNat ≤ 57

/-- Value of a non-empty all-digit string. -/
def digitsVal (d : PyStr) : Nat :=
  d.foldl (fun a c => 10 * a + (c.toNat - 48)) 0

/-- Python `int(s)`: strip whitespace, optional sign, non-empty digit run
(underscore grouping is not modelled; no input here uses it). -/
def pyInt (s : PyStr) : Option Int :=
  match pyStrip s with
  | [] => none
  | c :: d =>
    if c = '-' then
      if d ≠ [] ∧ d.all pyIsDigit then some (-(digitsVal d : Int)) else none
    else if c = '+' then
      if d ≠ [] ∧ d.all pyIsDigit then some (digitsVal d : Int) else none
    else
      if (c :: d).all pyIsDigit then some (digitsVal (c :: d) : Int) else none

/-- `sep.join(parts)`. -/
def pyJoinSep (sep : PyStr) : List PyStr → PyStr
  | [] => []
  | [x] => x
  | x :: xs => x ++ sep ++ pyJoinSep sep xs

/-- `posixpath.dirname`. -/
def pyDirname (p : PyStr) : PyStr :=
  match pyRSplitLast '/' p with
  | none => []
  | some (a, _) =>
    let head := a ++ ['/']
    if head.all (fun c => c = '/') then head
    else (head.reverse.dropWhile (fun c => c = '/')).reverse

/-- `posixpath.join` for two components. -/
def pyJoin (a b : PyStr) : PyStr :=
  if pyIsPre (S "/") b then b
  else if a = [] then b
  else if a.getLast? = some '/' then a ++ b
  else a ++ '/' :: b

/-! ## Domain model (src/autofs_gui/domain) -/

/-- An entry mapping (a Python `Dict[str, Any]`): `none` models an absent
key (the code only ever reads these keys; `entry.get(k) or ""` collapses
an absent key, a `None` value and `""` to `""`, which `Option.getD []`
mirrors). `server_alive_interval` / `server_alive_count` hold ints when
present, matching every producer in the repository (`SshfsEntry`,
`parse_map_text`, the CLI's JSON input). -/
structure EntryMap where
  mount_point : Option PyStr := none
  user : Option PyStr := none
  host : Option PyStr := none
  remote_path : Option PyStr := none
  fstype : Option PyStr := none
  identity_file : Option PyStr := none
  uid : Option PyStr := none
  gid : Option PyStr := none
  umask : Option PyStr := none
  allow_other : Option Bool := none
  reconnect : Option Bool := none
  delay_connect : Option Bool := none
  server_alive_interval : Option Int := none
  server_alive_count : Option Int := none
  extra_options : Option PyStr := none
deriving DecidableEq

/-- `domain/models/sshfs_entry.py`: the `SshfsEntry` dataclass with its
field defaults. -/
structure SshfsEntry where
  mount_point : PyStr
  host : PyStr
  remote_path : PyStr
  user : PyStr := []
  fstype : PyStr := S "fuse.sshfs"
  identity_file : PyStr := []
  allow_other : Bool := true
  uid : PyStr := S "1000"
  gid : PyStr := S "1000"
  umask : PyStr := S "022"
  server_alive_interval : Int := 15
  server_alive_count : Int := 3
  reconnect : Bool := true
  delay_connect : Bool := true
  extra_options : PyStr := []
deriving DecidableEq

/-- `SshfsEntry.from_dict` (`SshfsEntry(**d)`): absent keys take the
dataclass defaults; an absent required field raises (`none`). -/
def sshfs_entry_from_dict (d : EntryMap) : Option SshfsEntry :=
  match d.mount_point, d.host, d.remote_path with
  | some mp, some h, some rp =>
    some { mount_point := mp, host := h, remote_path := rp,
           user := d.user.getD [],
           fstype := d.fstype.getD (S "fuse.sshfs"),
           identity_file := d.identity_file.getD [],
           allow_other := d.allow_other.getD true,
           uid := d.uid.getD (S "1000"),
           gid := d.gid.getD (S "1000"),
           umask := d.umask.getD (S "022"),
           server_alive_interval := (d.server_alive_interval).getD 15,
           server_alive_count := (d.server_alive_count).getD 3,
           reconnect := d.reconnect.getD true,
           delay_connect := d.delay_connect.getD true,
           extra_options := d.extra_options.getD [] }
  | _, _, _ => none

/-- `SshfsEntry.to_dict` (`dataclasses.asdict`): every field present. -/
def sshfs_entry_to_dict (e : SshfsEntry) : EntryMap :=
  { mount_point := some e.mount_point, user := some e.user,
    host := some e.host, remote_path := some e.remote_path,
    fstype := some e.fstype, identity_file := some e.identity_file,
    uid := some e.uid, gid := some e.gid, umask := some e.umask,
    allow_other := some e.allow_other, reconnect := some e.reconnect,
    delay_connect := some e.delay_connect,
    server_alive_interval := some e.server_alive_interval,
    server_alive_count := some e.server_alive_count,
    extra_options := some e.extra_options }

/-- `domain/validation/entry_validator.py` `validate_entry`: `true` iff no
`ValueError` is raised. -/
def validate_entry (entry : EntryMap) : Bool :=
  let mp := pyStrip (entry.mount_point.getD [])
  let host := pyStrip (entry.host.getD [])
  let rpath := pyStrip (entry.remote_path.getD [])
  !(mp = []) && !(host = []) && !(rpath = []) &&
  pyIsPre (S "/") mp && !(host.any pyIsSpace) && pyIsPre (S "/") rpath

/-- `domain/services/file_builder.py` `escape_spaces`. -/
def escape_spaces (path : PyStr) : PyStr :=
  pyReplace (S " ") (S "\\040") path

/-- `domain/services/file_builder.py` `build_map_line`. `pathExists`
abstracts `os.path.exists` (the only environment query the function
makes); `none` models the `ValueError` raised on blank required fields. -/
def build_map_line (pathExists : PyStr → Bool) (entry : EntryMap) : Option PyStr :=
  let mount_point := pyStrip (entry.mount_point.getD [])
  let user := pyStrip (entry.user.getD [])
  let host := pyStrip (entry.host.getD [])
  let remote_path := pyStrip (entry.remote_path.getD [])
  let fstype0 := entry.fstype.getD []
  let fstype1 := pyStrip (if fstype0 = [] then S "fuse.sshfs" else fstype0)
  let fstype := if fstype1 = [] then S "fuse.sshfs" else fstype1
  let identity_file := pyStrip (entry.identity_file.getD [])
  let uid := pyStrip (entry.uid.getD [])
  let gid := pyStrip (entry.gid.getD [])
  let umask := pyStrip (entry.umask.getD [])
  let allow_other := entry.allow_other.getD false
  let reconnect := entry.reconnect.getD true
  let delay_connect := entry.delay_connect.getD true
  let sai := pyStrip (match entry.server_alive_interval with
    | none => S "15" | some n => pyIntToStr n)
  let sac := pyStrip (match entry.server_alive_count with
    | none => S "3" | some n => pyIntToStr n)
  let extra := pyStrip (entry.extra_options.getD [])
  if mount_point = [] ∨ host = [] ∨ remote_path = [] then none
  else
    let idOpts :=
      if identity_file ≠ [] then
        let known_hosts :=
          if pyIsPre (S "/root/") identity_file then some (S "/root/.ssh/known_hosts")
          else
            let cand := pyJoin (pyDirname identity_file) (S "known_hosts")
            if pathExists cand then some cand else none
        [S "IdentityFile=" ++ identity_file] ++
        (match known_hosts with
          | some k => [S "UserKnownHostsFile=" ++ k]
          | none => []) ++
        [S "StrictHostKeyChecking=accept-new"]
      else []
    let opts := [S "-fstype=" ++ fstype] ++ idOpts ++
      (if allow_other then [S "allow_other"] else []) ++
      (if uid ≠ [] then [S "uid=" ++ uid] else []) ++
      (if gid ≠ [] then [S "gid=" ++ gid] else []) ++
      (if umask ≠ [] then [S "umask=" ++ umask] else []) ++
      (if sai ≠ [] then [S "ServerAliveInterval=" ++ sai] else []) ++
      (if sac ≠ [] then [S "ServerAliveCountMax=" ++ sac] else []) ++
      (if reconnect then [S "reconnect"] else []) ++
      (if delay_connect then [S "delay_connect"] else []) ++
      ((pySplitAll ',' extra).map pyStrip).filter (fun tok => tok ≠ [])
    let remote_spec := ':' ::
      ((if user ≠ [] then user ++ ['@'] else []) ++ host ++ ':' :: escape_spaces remote_path)
    some (mount_point ++ ' ' :: pyJoinSep (S ",") opts ++ ' ' :: remote_spec)

/-! ## Map-file parser (src/autofs_gui/infrastructure/parsers/map_parser.py) -/

/-- The dict produced for one parsed line. -/
structure ParsedEntry where
  mount_point : PyStr
  user : PyStr
  host : PyStr
  remote_path : PyStr
  fstype : PyStr
  identity_file : PyStr
  allow_other : Bool
  uid : PyStr
  gid : PyStr
  umask : PyStr
  server_alive_interval : Int
  server_alive_count : Int
  reconnect : Bool
  delay_connect : Bool
  extra_options : PyStr
deriving DecidableEq

/-- Accumulator for the per-option loop of `parse_map_text`. -/
structure OptAcc where
  identity_file : PyStr := []
  allow_other : Bool := false
  uid : PyStr := []
  gid : PyStr := []
  umask : PyStr := []
  sai : PyStr := []
  sac : PyStr := []
  reconnect : Bool := false
  delay_connect : Bool := false
  extra : List PyStr := []
deriving DecidableEq

/-- One iteration of the `for o in opts` loop of `parse_map_text`. -/
def optStep (acc : OptAcc) (o : PyStr) : OptAcc :=
  if pyHasChar o '=' then
    match pySplitFirst '=' o with
    | some (k, v) =>
      if k = S "IdentityFile" then { acc with identity_file := v }
      else if k = S "uid" then { acc with uid := v }
      else if k = S "gid" then { acc with gid := v }
      else if k = S "umask" then { acc with umask := v }
      else if k = S "ServerAliveInterval" then { acc with sai := v }
      else if k = S "ServerAliveCountMax" then { acc with sac := v }
      else { acc with extra := acc.extra ++ [o] }
    | none => { acc with extra := acc.extra ++ [o] }
  else
    if o = S "allow_other" then { acc with allow_other := true }
    else if o = S "reconnect" then { acc with reconnect := true }
    else if o = S "delay_connect" then { acc with delay_connect := true }
    else { acc with extra := acc.extra ++ [o] }

/-- The body of `parse_map_text`'s `try` block for one (already stripped,
non-blank, non-comment) line; `none` models any caught exception and the
`continue` on a non-`-fstype=` option field. -/
def parseMapLine (line : PyStr) : Option ParsedEntry := do
  let (left, rest) ← pySplitFirst ' ' line
  let (opts_part, remote_part) ← pyRSplitLast ' ' rest
  if ¬ pyIsPre (S "-fstype=") opts_part then none else
  let opt_items := pySplitAll ',' opts_part
  let head0 ← opt_items.head?
  let (_, fstype) ← pySplitFirst '=' head0
  let acc := (opt_items.tail).foldl optStep {}
  let rp := if pyIsPre (S ":") remote_part then remote_part.tail else remote_part
  let headSeg := match pySplitFirst ':' rp with
    | some p => p.1
    | none => rp
  let (user, resth) ← if pyHasChar headSeg '@' then pySplitFirst '@' rp else some ([], rp)
  let (host, rpath) ← pySplitFirst ':' resth
  let rpath_gui := pyReplace (S "\\040") (S " ") rpath
  let sai ← if acc.sai = [] then some (15 : Int) else pyInt acc.sai
  let sac ← if acc.sac = [] then some (3 : Int) else pyInt acc.sac
  some { mount_point := left, user := user, host := host, remote_path := rpath_gui,
         fstype := fstype, identity_file := acc.identity_file,
         allow_other := acc.allow_other,
         uid := acc.uid, gid := acc.gid, umask := acc.umask,
         server_alive_interval := sai, server_alive_count := sac,
         reconnect := acc.reconnect, delay_connect := acc.delay_connect,
         extra_options := pyJoinSep (S ",") acc.extra }

/-- Per-raw-line result: blank and `#` lines are skipped before the `try`
block. -/
def lineEntry (raw : PyStr) : Option ParsedEntry :=
  let line := pyStrip raw
  if line = [] then none
  else if pyIsPre (S "#") line then none
  else parseMapLine line

/-- `parse_map_text`: best-effort, line-oriented. -/
def parse_map_text (map_txt : PyStr) : List ParsedEntry :=
  if map_txt = [] then []
  else (pySplitlines map_txt).filterMap lineEntry

/-! ## Use cases (src/autofs_gui/application/use_cases/main.py) -/

/-- `UseCases.parse_master_options`. -/
def parse_master_options (master_txt : PyStr) : Int × Bool :=
  let ghost := pyContains master_txt (S "--ghost")
  let toVal := (pySplitWS master_txt).foldl
    (fun acc tok =>
      if pyIsPre (S "--timeout=") tok then
        match pySplitFirst '=' tok with
        | some p =>
          match pyInt p.2 with
          | some n => n
          | none => acc
        | none => acc
      else acc) 120
  (toVal, ghost)

/-- The new fuse.conf contents computed by
`UseCases.enable_user_allow_other` from the current contents (`[]` models
an absent file; the subsequent direct or privileged write stores exactly
this text). -/
def enable_user_allow_other (txt : PyStr) : PyStr :=
  if txt ≠ [] ∧ pyContains txt (S "user_allow_other") then
    pyReplace (S "#user_allow_other") (S "user_allow_other") txt
  else
    (if txt ≠ [] then txt ++ S "\n" else []) ++ S "user_allow_other\n"

/-- Number of lines of a fuse.conf text whose stripped content is exactly
`user_allow_other` (an "active" `user_allow_other` line). -/
def activeUserAllowOtherLines (txt : PyStr) : Nat :=
  ((pySplitlines txt).filter (fun l => pyStrip l = S "user_allow_other")).length

/-- `UseCases.write_config`'s `temporary` flag: `as_root` writes directly
(never temporary); otherwise the combined privileged `cp` runs and the
result is temporary exactly when that `run_sudo` call exits non-zero.
`sudo_rc` abstracts that exit code. -/
def write_config_temporary (as_root : Bool) (sudo_rc : Int) : Bool :=
  if as_root then false else sudo_rc ≠ 0

/-! ## CLI (src/autofs_gui/presentation/cli/main.py) -/

/-- The raw persisted-state JSON dict as the CLI's `--from-state` path
sees it (`load_state()` returns the parsed file): the documented schema
stores `master_options = {timeout, ghost}`; the legacy monolith stored
top-level `master_timeout` / `master_ghost` keys. All are modelled so
that `st.get(...)` can be read faithfully. -/
structure StateDict where
  entries : List EntryMap := []
  master_options : Option (Int × Bool) := none
  master_timeout : Option Int := none
  master_ghost : Option Bool := none

/-- `AppState.to_dict` (domain/models/app_state.py), restricted to the
keys the CLI reads: entries plus `master_options` as a nested mapping
(`asdict(MasterOptions)`); no top-level `master_timeout`/`master_ghost`
keys exist in this schema. -/
def app_state_to_dict (entries : List EntryMap) (timeout : Int) (ghost : Bool) : StateDict :=
  { entries := entries, master_options := some (timeout, ghost) }

/-- The `--from-state` branch of `_resolve_entries`. -/
def resolve_entries_from_state (st : StateDict) (arg_timeout : Option Int)
    (arg_ghost : Option Bool) : List EntryMap × Int × Bool :=
  (st.entries,
   match arg_timeout with
   | some t => t
   | none => st.master_timeout.getD 120,
   match arg_ghost with
   | some g => g
   | none => st.master_ghost.getD true)

/-- `cmd_build`'s return value (the process exit code): with `--write` it
returns the restart's exit code only when `--restart` was given and the
write was not temporary, else `0`; without `--write` it returns `0`. -/
def cmd_build_exit (write restart : Bool) (temporary : Bool) (restart_rc : Int) : Int :=
  if write then (if restart ∧ ¬temporary then restart_rc else 0) else 0

/-- `cmd_service` returns the service command's exit code. -/
def cmd_service_exit (rc : Int) : Int := rc

/-- `cmd_ssh_check` returns the SSH test's exit code. -/
def cmd_ssh_check_exit (rc : Int) : Int := rc

/-- `cmd_ls` returns the listing command's exit code. -/
def cmd_ls_exit (rc : Int) : Int := rc

/-- `cmd_umount` returns the umount command's exit code. -/
def cmd_umount_exit (rc : Int) : Int := rc

/-- `cmd_load` always returns `0`. -/
def cmd_load_exit : Int := 0

/-! ## Sudo runner (src/autofs_gui/infrastructure/system/sudo_runner.py) -/

/-- Outcome of one `sudo -S` subprocess run: a `TimeoutExpired`, or a
completed process with exit code and (stripped) stdout/stderr. -/
inductive RunRes where
  | timeout
  | finished (rc : Int) (out err : PyStr)

/-- The password an attempt of `run_sudo`'s loop works with
(`passwd = _CACHED_PASS; if not passwd and ask_pass: passwd = ask_pass() or ""`;
an empty cached string counts as no password). -/
def sudoAttemptPass (cached : Option PyStr) (askAvail : Bool)
    (ask : Nat → Option PyStr) (i : Nat) : PyStr :=
  if cached.getD [] = [] ∧ askAvail then (ask i).getD [] else cached.getD []

/-- The retry condition of `run_sudo`'s interactive loop. -/
def sudoRetryTrigger (rc : Int) (err : PyStr) : Bool :=
  pyContains (pyLower err) (S "incorrect password") ||
  pyContains (pyLower err) (S "a password is required") || rc = 1

/-- The `while attempts < 2` loop of `run_sudo` (entered when the
non-interactive probe fails). `askAvail` models whether an `ask_pass`
callback was supplied; `ask i` / `runs i` give the i-th prompt answer and
subprocess outcome. Returns the result triple together with the final
`_CACHED_PASS`. -/
def run_sudo_go (cmd : PyStr) (askAvail : Bool) (ask : Nat → Option PyStr)
    (runs : Nat → RunRes) : Nat → Nat → Option PyStr → (Int × PyStr × PyStr) × Option PyStr
  | 0, _, cached => ((1, [], S "sudo authentication failed"), cached)
  | n + 1, i, cached =>
    let p := sudoAttemptPass cached askAvail ask i
    if p = [] then ((1, [], S "sudo password not provided"), cached)
    else
      match runs i with
      | .timeout => ((124, [], S "Timeout executing: " ++ cmd), cached)
      | .finished rc out err =>
        if rc = 0 then ((rc, out, err), some p)
        else if sudoRetryTrigger rc err then run_sudo_go cmd askAvail ask runs n (i + 1) none
        else ((rc, out, err), cached)

/-- `run_sudo`'s interactive path: two attempts, starting from the current
cached password. -/
def run_sudo_interactive (cmd : PyStr) (askAvail : Bool) (ask : Nat → Option PyStr)
    (runs : Nat → RunRes) (cached : Option PyStr) : (Int × PyStr × PyStr) × Option PyStr :=
  run_sudo_go cmd askAvail ask runs 2 0 cached

/-! ## Host discovery (src/autofs_gui/infrastructure/discovery/hosts.py) -/

/-- A discovered host candidate. -/
structure HostCandidate where
  name : PyStr
  address : Option PyStr
  source : PyStr
deriving DecidableEq

/-- The process-wide cache (`_CACHE`, `_CACHE_TS`). -/
structure DiscoCache where
  cache : List HostCandidate
  ts : Int
deriving DecidableEq

/-- One call to `discover_hosts`: `fresh` abstracts the deduplicated,
sorted aggregate the thread-pooled source pass would produce (its internal
concurrency is not modelled); the returned `Bool` records whether the
sources were invoked. `_CACHE_TTL = 60`. -/
def discover_hosts (force : Bool) (now : Int) (fresh : List HostCandidate)
    (st : DiscoCache) : List HostCandidate × Bool × DiscoCache :=
  if force = false ∧ st.cache ≠ [] ∧ now - st.ts < 60 then (st.cache, false, st)
  else (fresh, true, ⟨fresh, now⟩)

/-! ## Predicates and helper definitions used in theorem statements -/

/-- Every character is ASCII (keeps the Python-string model exact). -/
def asciiOnly (s : PyStr) : Bool := s.all (fun c => c.toNat < 128)

/-- No whitespace characters at all. -/
def noWS (s : PyStr) : Bool := s.all (fun c => !pyIsSpace c)

/-- No line-separator characters. -/
def lineSafe (s : PyStr) : Bool := s.all (fun c => !isLineSep c)

/-- A string safe to embed as one comma-separated option token: ASCII,
no whitespace, no comma. -/
def cleanTok (s : PyStr) : Bool := asciiOnly s && noWS s && !(pyHasChar s ',')

/-- Whether `parse_map_text` would special-case this option token rather
than keep it in `extra_options`. -/
def specialOptTok (t : PyStr) : Bool :=
  match pySplitFirst '=' t with
  | some p =>
    p.1 = S "IdentityFile" || p.1 = S "uid" || p.1 = S "gid" || p.1 = S "umask" ||
    p.1 = S "ServerAliveInterval" || p.1 = S "ServerAliveCountMax"
  | none => t = S "allow_other" || t = S "reconnect" || t = S "delay_connect"

/-- The value a `--timeout=N` master-option token contributes (if the token
has the right shape and its payload parses as an int). -/
def timeoutTokVal (tok : PyStr) : Option Int :=
  if pyIsPre (S "--timeout=") tok then
    match pySplitFirst '=' tok with
    | some p => pyInt p.2
    | none => none
  else none

/-- The C3 claim's reading of `parse_master_options`' timeout: the value of
the FIRST parseable `--timeout=` token, defaulting to 120 (stated from the
claim's words, used only to refute it). -/
def claimFirstTimeout (t : PyStr) : Int :=
  (((pySplitWS t).filterMap timeoutTokVal).head?).getD 120

example : S "ab" = ['a', 'b'] := by decide
example : pyStrip (S "  a b\t") = S "a b" := by decide
example : pySplitFirst ' ' (S "a b c") = some (S "a", S "b c") := by decide
example : pyRSplitLast ' ' (S "a b c") = some (S "a b", S "c") := by decide
example : pySplitAll ',' (S "a,,b") = [S "a", [], S "b"] := by decide
example : pySplitlines (S "a\nb\n") = [S "a", S "b"] := by decide
example : pySplitlines (S "a\r\nb") = [S "a", S "b"] := by decide
example : pySplitWS (S " a  bc ") = [S "a", S "bc"] := by decide
example : pyReplace (S " ") (S "\\040") (S "a b") = S "a\\040b" := by decide
example : pyReplace (S "#u") (S "u") (S "##u") = S "#u" := by decide
example : pyContains (S "xyz--ghost") (S "--ghost") = true := by decide
example : pyInt (S " -42 ") = some (-42) := by decide
example : pyInt (S "4x2") = none := by decide
example : pyIntToStr (-120) = S "-120" := by decide

/-! ## Basic lemmas about the string model -/

theorem pyContains_cons (c : Char) (t pat : PyStr) :
    pyContains (c :: t) pat = (pyIsPre pat (c :: t) || pyContains t pat) := rfl

theorem pyIsPre_eq_iff (p s : PyStr) : pyIsPre p s = true ↔ ∃ r, s = p ++ r := by
  induction p generalizing s with
  | nil => simp [pyIsPre]
  | cons a p ih =>
    cases s with
    | nil =>
      simp only [pyIsPre, List.cons_append]
      constructor
      · intro h; exact absurd h (by simp)
      · rintro ⟨r, h⟩; exact absurd h (by simp)
    | cons c t =>
      simp only [pyIsPre, Bool.and_eq_true, decide_eq_true_eq, ih, List.cons_append]
      constructor
      · rintro ⟨rfl, r, rfl⟩; exact ⟨r, rfl⟩
      · rintro ⟨r, h⟩
        injection h with h1 h2
        exact ⟨h1.symm, r, h2⟩

theorem pyIsPre_refl_append (p r : PyStr) : pyIsPre p (p ++ r) = true :=
  (pyIsPre_eq_iff p (p ++ r)).2 ⟨r, rfl⟩

theorem pyIsPre_length_le {p s : PyStr} (h : pyIsPre p s = true) : p.length ≤ s.length := by
  obtain ⟨r, rfl⟩ := (pyIsPre_eq_iff p s).1 h
  simp

theorem pyIsPre_append_of_le {p x : PyStr} (y : PyStr) (h : p.length ≤ x.length) :
    pyIsPre p (x ++ y) = pyIsPre p x := by
  induction p generalizing x with
  | nil => simp [pyIsPre]
  | cons a p ih =>
    cases x with
    | nil => simp at h
    | cons c t =>
      simp only [List.cons_append, pyIsPre, List.append_eq]
      rw [ih (x := t) (by simpa using h)]

theorem pyIsPre_longer_mem {p x : PyStr} {c : Char} (y : PyStr)
    (h : pyIsPre p (x ++ c :: y) = true) (hl : x.length < p.length) : c ∈ p := by
  obtain ⟨r, he⟩ := (pyIsPre_eq_iff p (x ++ c :: y)).1 h
  have hp : p = (x ++ c :: y).take p.length := by
    rw [he, List.take_left]
  rw [hp, List.take_append_eq_append_take]
  refine List.mem_append.2 (Or.inr ?_)
  cases hn : p.length - x.length with
  | zero => omega
  | succ k => simp [hn]

theorem pyContains_nil (pat : PyStr) : pyContains [] pat = pyIsPre pat [] := rfl

theorem pyContains_eq_iff (s pat : PyStr) :
    pyContains s pat = true ↔ ∃ x y, s = x ++ pat ++ y := by
  induction s with
  | nil =>
    rw [pyContains_nil, pyIsPre_eq_iff]
    constructor
    · rintro ⟨r, h⟩
      exact ⟨[], r, by simpa using h⟩
    · rintro ⟨x, y, h⟩
      have hpat : pat = [] := by
        cases pat with
        | nil => rfl
        | cons c p => exact absurd h.symm (by simp)
      exact ⟨[], by simp [hpat]⟩
  | cons c t ih =>
    simp only [pyContains_cons, Bool.or_eq_true, ih, pyIsPre_eq_iff]
    constructor
    · rintro (⟨r, h⟩ | ⟨x, y, h⟩)
      · exact ⟨[], r, by simpa using h⟩
      · exact ⟨c :: x, y, by simp [h]⟩
    · rintro ⟨x, y, h⟩
      cases x with
      | nil =>
        left
        exact ⟨y, by simpa using h⟩
      | cons a x =>
        right
        rw [List.cons_append, List.cons_append] at h
        injection h with h1 h2
        exact ⟨x, y, h2⟩

theorem pyContains_of_isPre {s pat : PyStr} (h : pyIsPre pat s = true) :
    pyContains s pat = true := by
  obtain ⟨r, rfl⟩ := (pyIsPre_eq_iff pat s).1 h
  exact (pyContains_eq_iff _ _).2 ⟨[], r, rfl⟩

theorem pyContains_pat_tail {s pat : PyStr} {c : Char}
    (h : pyContains s (c :: pat) = true) : pyContains s pat = true := by
  obtain ⟨x, y, hxy⟩ := (pyContains_eq_iff _ _).1 h
  exact (pyContains_eq_iff _ _).2 ⟨x ++ [c], y, by simp [hxy]⟩

theorem pyContains_append_sep (A B pat : PyStr) (sep : Char) (hp : pat ≠ [])
    (hs : sep ∉ pat) :
    pyContains (A ++ sep :: B) pat = (pyContains A pat || pyContains B pat) := by
  induction A with
  | nil =>
    cases pat with
    | nil => exact absurd rfl hp
    | cons c p =>
      have hc : (c = sep) = False := by
        simp only [eq_iff_iff, iff_false]
        intro e
        exact hs (e ▸ List.mem_cons_self c p)
      simp [pyContains_cons, pyContains_nil, pyIsPre, hc]
  | cons a A ih =>
    have hpre : pyIsPre pat (a :: (A ++ sep :: B)) = pyIsPre pat (a :: A) := by
      have heq : a :: (A ++ sep :: B) = (a :: A) ++ sep :: B := by simp
      rw [heq]
      by_cases hlen : pat.length ≤ (a :: A).length
      · exact pyIsPre_append_of_le (sep :: B) hlen
      · push_neg at hlen
        have h2 : pyIsPre pat (a :: A) = false := by
          cases h : pyIsPre pat (a :: A) with
          | false => rfl
          | true => exact absurd (pyIsPre_length_le h) (by omega)
        have h1 : pyIsPre pat ((a :: A) ++ sep :: B) = false := by
          cases h : pyIsPre pat ((a :: A) ++ sep :: B) with
          | false => rfl
          | true => exact absurd (pyIsPre_longer_mem B h hlen) hs
        rw [h1, h2]
    show pyContains (a :: (A ++ sep :: B)) pat = _
    rw [pyContains_cons, hpre, ih, ← Bool.or_assoc, ← pyContains_cons]

theorem pyContains_append_last (A pat : PyStr) (sep : Char) (hp : pat ≠ [])
    (hs : sep ∉ pat) : pyContains (A ++ [sep]) pat = pyContains A pat := by
  rw [pyContains_append_sep A [] pat sep hp hs]
  cases pat with
  | nil => exact absurd rfl hp
  | cons c p => simp [pyContains_nil, pyIsPre]

theorem getLast?_append_right (x : PyStr) {y : PyStr} (h : y ≠ []) :
    (x ++ y).getLast? = y.getLast? := by
  induction x with
  | nil => rfl
  | cons a x ih =>
    rw [List.cons_append, List.getLast?_cons, ih]
    cases hy : y with
    | nil => exact absurd hy h
    | cons b t =>
      cases x with
      | nil => simp [List.getLast?_cons]
      | cons c s => simp [List.getLast?_cons]

theorem pyStrip_eq_self {s : PyStr} (h1 : s.head?.all (fun c => !pyIsSpace c) = true)
    (h2 : s.getLast?.all (fun c => !pyIsSpace c) = true) : pyStrip s = s := by
  unfold pyStrip
  have d1 : s.dropWhile pyIsSpace = s := by
    cases s with
    | nil => rfl
    | cons c t =>
      rw [List.dropWhile_cons]
      simp only [List.head?_cons, Option.all_some, Bool.not_eq_true'] at h1
      simp [h1]
  rw [d1]
  have d2 : s.reverse.dropWhile pyIsSpace = s.reverse := by
    cases hr : s.reverse with
    | nil => rfl
    | cons c t =>
      have hl : s.getLast? = some c := by
        rw [← List.head?_reverse, hr, List.head?_cons]
      rw [hl, Option.all_some, Bool.not_eq_true'] at h2
      rw [List.dropWhile_cons]
      simp [h2]
  rw [d2, List.reverse_reverse]

theorem pyStrip_eq_self_of_all {s : PyStr} (h : ∀ c ∈ s, pyIsSpace c = false) :
    pyStrip s = s := by
  refine pyStrip_eq_self ?_ ?_
  · cases s with
    | nil => rfl
    | cons a t =>
      simp only [List.head?_cons, Option.all_some, Bool.not_eq_true']
      exact h a (List.mem_cons_self a t)
  · cases hh : s.getLast? with
    | none => rfl
    | some c =>
      simp only [Option.all_some, Bool.not_eq_true']
      exact h c (List.mem_of_mem_getLast? hh)

theorem pySplitFirst_eq (sep : Char) (x y : PyStr) (h : sep ∉ x) :
    pySplitFirst sep (x ++ sep :: y) = some (x, y) := by
  induction x with
  | nil => simp [pySplitFirst]
  | cons c t ih =>
    have hc : (c = sep) = False := by
      simp only [eq_iff_iff, iff_false]
      intro e
      exact h (e ▸ List.mem_cons_self c t)
    rw [List.cons_append]
    simp only [pySplitFirst, hc, if_false]
    rw [ih (fun m => h (List.mem_cons_of_mem c m))]
    rfl

theorem pySplitFirst_eq_none_iff (sep : Char) (s : PyStr) :
    pySplitFirst sep s = none ↔ sep ∉ s := by
  induction s with
  | nil => simp [pySplitFirst]
  | cons c t ih =>
    by_cases hc : c = sep
    · subst hc
      simp [pySplitFirst]
    · simp [pySplitFirst, hc, ih, Ne.symm hc]

theorem pyRSplitLast_eq (sep : Char) (x y : PyStr) (h : sep ∉ y) :
    pyRSplitLast sep (x ++ sep :: y) = some (x, y) := by
  unfold pyRSplitLast
  have hrev : (x ++ sep :: y).reverse = y.reverse ++ sep :: x.reverse := by
    simp
  rw [hrev, pySplitFirst_eq sep y.reverse x.reverse (by simpa using h)]
  simp

theorem pySplitAll_of_not_mem (sep : Char) {a : PyStr} (h : sep ∉ a) :
    pySplitAll sep a = [a] := by
  induction a with
  | nil => rfl
  | cons c t ih =>
    have hc : (c = sep) = False := by
      simp only [eq_iff_iff, iff_false]
      intro e
      exact h (e ▸ List.mem_cons_self c t)
    simp only [pySplitAll, hc, if_false]
    rw [ih (fun m => h (List.mem_cons_of_mem c m))]

theorem pySplitAll_append_sep (sep : Char) {a : PyStr} (rest : PyStr) (h : sep ∉ a) :
    pySplitAll sep (a ++ sep :: rest) = a :: pySplitAll sep rest := by
  induction a with
  | nil => simp [pySplitAll]
  | cons c t ih =>
    have hc : (c = sep) = False := by
      simp only [eq_iff_iff, iff_false]
      intro e
      exact h (e ▸ List.mem_cons_self c t)
    rw [List.cons_append]
    simp only [pySplitAll, hc, if_false]
    rw [ih (fun m => h (List.mem_cons_of_mem c m))]

theorem pySplitAll_joinSep (sep : Char) (ts : List PyStr) (hne : ts ≠ [])
    (h : ∀ t ∈ ts, sep ∉ t) :
    pySplitAll sep (pyJoinSep [sep] ts) = ts := by
  induction ts with
  | nil => exact absurd rfl hne
  | cons a ts ih =>
    cases ts with
    | nil =>
      show pySplitAll sep (pyJoinSep [sep] [a]) = [a]
      rw [show pyJoinSep [sep] [a] = a from rfl]
      exact pySplitAll_of_not_mem sep (h a (List.mem_cons_self a []))
    | cons b ts2 =>
      have hj : pyJoinSep [sep] (a :: b :: ts2) = a ++ sep :: pyJoinSep [sep] (b :: ts2) := by
        show a ++ [sep] ++ pyJoinSep [sep] (b :: ts2) = _
        simp
      rw [hj, pySplitAll_append_sep sep _ (h a (List.mem_cons_self a _)),
        ih (by simp) (fun t m => h t (List.mem_cons_of_mem a m))]

/-! ## splitlines lemmas -/

theorem pySplitlines_cons_nl (t : PyStr) : pySplitlines ('\n' :: t) = [] :: pySplitlines t := by
  rfl

theorem pySplitlines_cons_notSep {c : Char} (t : PyStr) (h : isLineSep c = false) :
    pySplitlines (c :: t) =
      match pySplitlines t with
      | [] => [[c]]
      | h :: r => (c :: h) :: r := by
  have hr : c ≠ '\r' := by
    intro e
    rw [e] at h
    simp [isLineSep] at h
  cases t with
  | nil =>
    simp [pySplitlines, h]
  | cons b t2 =>
    have heq : pySplitlines (c :: b :: t2) =
        if isLineSep c then [] :: pySplitlines (b :: t2)
        else match pySplitlines (b :: t2) with
          | [] => [[c]]
          | h :: r => (c :: h) :: r := by
      rw [pySplitlines]
      intro t2h e1 e2
      exact hr e1
    rw [heq, h]
    simp

theorem pyContains_nil_pat (s : PyStr) : pyContains s [] = true := by
  induction s with
  | nil => rfl
  | cons c t ih => simp [pyContains_cons, ih, pyIsPre]

theorem pyContains_of_tail {t pat : PyStr} (c : Char) (h : pyContains t pat = true) :
    pyContains (c :: t) pat = true := by
  simp [pyContains_cons, h]

theorem pyContains_trans {a b c : PyStr} (h1 : pyContains a b = true)
    (h2 : pyContains b c = true) : pyContains a c = true := by
  obtain ⟨x, y, rfl⟩ := (pyContains_eq_iff _ _).1 h1
  obtain ⟨u, v, huv⟩ := (pyContains_eq_iff _ _).1 h2
  exact (pyContains_eq_iff _ _).2 ⟨x ++ u, v ++ y, by simp [huv]⟩

theorem pyStrip_infix (l : PyStr) : ∃ x y, l = x ++ pyStrip l ++ y := by
  refine ⟨l.takeWhile pyIsSpace,
    ((l.dropWhile pyIsSpace).reverse.takeWhile pyIsSpace).reverse, ?_⟩
  conv_lhs => rw [← List.takeWhile_append_dropWhile (p := pyIsSpace) (l := l)]
  rw [List.append_assoc]
  congr 1
  conv_lhs => rw [← List.reverse_reverse (l.dropWhile pyIsSpace),
    ← List.takeWhile_append_dropWhile (p := pyIsSpace) (l := (l.dropWhile pyIsSpace).reverse)]
  rw [List.reverse_append]
  rfl

theorem pyContains_pyStrip (l : PyStr) : pyContains l (pyStrip l) = true := by
  obtain ⟨x, y, h⟩ := pyStrip_infix l
  exact (pyContains_eq_iff _ _).2 ⟨x, y, h⟩

theorem pySplitlines_crnl (t2 : PyStr) :
    pySplitlines ('\r' :: '\n' :: t2) = [] :: pySplitlines t2 := rfl

theorem pySplitlines_cons_cr {b : Char} (t2 : PyStr) (hb : b ≠ '\n') :
    pySplitlines ('\r' :: b :: t2) = [] :: pySplitlines (b :: t2) := by
  have heq : pySplitlines ('\r' :: b :: t2) =
      if isLineSep '\r' then [] :: pySplitlines (b :: t2)
      else match pySplitlines (b :: t2) with
        | [] => [['\r']]
        | h :: r => ('\r' :: h) :: r := by
    rw [pySplitlines]
    intro t2h e1 e2
    exact hb (by injection e2)
  rw [heq]
  simp [isLineSep]

theorem pySplitlines_cons_sep {c : Char} (t : PyStr) (hsep : isLineSep c = true)
    (hc : c ≠ '\r') : pySplitlines (c :: t) = [] :: pySplitlines t := by
  cases t with
  | nil =>
    have heq : pySplitlines [c] = if isLineSep c = true then [[]] else [[c]] := by
      rw [pySplitlines]
      · split <;> rfl
      · intro t2h e1 e2
        exact absurd e2 (by simp)
    rw [heq, hsep]
    simp [pySplitlines]
  | cons b t2 =>
    have heq : pySplitlines (c :: b :: t2) =
        if isLineSep c then [] :: pySplitlines (b :: t2)
        else match pySplitlines (b :: t2) with
          | [] => [[c]]
          | h :: r => (c :: h) :: r := by
      rw [pySplitlines]
      intro t2h e1 e2
      exact hc e1
    rw [heq, hsep]
    simp

theorem pySplitlines_ne_nil (c : Char) (t : PyStr) : pySplitlines (c :: t) ≠ [] := by
  by_cases hc : c = '\r'
  · subst hc
    cases t with
    | nil => decide
    | cons b t2 =>
      by_cases hb : b = '\n'
      · subst hb
        rw [pySplitlines_crnl]
        simp
      · rw [pySplitlines_cons_cr t2 hb]
        simp
  · by_cases hsep : isLineSep c
    · rw [pySplitlines_cons_sep t hsep hc]
      simp
    · rw [pySplitlines_cons_notSep t (by simpa using hsep)]
      cases pySplitlines t <;> simp

theorem pySplitlines_append_nl (A B : PyStr) :
    pySplitlines (A ++ '\n' :: B) = pySplitlines (A ++ ['\n']) ++ pySplitlines B := by
  induction A generalizing B with
  | nil => rfl
  | cons a A ih =>
    by_cases ha : a = '\r'
    · subst ha
      cases A with
      | nil => rfl
      | cons b A2 =>
        by_cases hb : b = '\n'
        · subst hb
          rw [List.cons_append, List.cons_append, pySplitlines_crnl,
            List.cons_append, List.cons_append, pySplitlines_crnl]
          have ihnl := ih (B := B)
          rw [List.cons_append, pySplitlines_cons_nl, List.cons_append,
            pySplitlines_cons_nl] at ihnl
          injection ihnl with h1 h2
          rw [h2, List.cons_append, List.append_eq]
        · rw [List.cons_append, List.cons_append, pySplitlines_cons_cr _ hb,
            List.cons_append, List.cons_append, pySplitlines_cons_cr _ hb]
          rw [← List.cons_append, ← List.cons_append, ih]
          rfl
    · by_cases hsep : isLineSep a
      · rw [List.cons_append, pySplitlines_cons_sep _ hsep ha,
          List.cons_append, pySplitlines_cons_sep _ hsep ha, ih]
        rfl
      · have hsep' : isLineSep a = false := by simpa using hsep
        rw [List.cons_append, pySplitlines_cons_notSep _ hsep',
          List.cons_append, pySplitlines_cons_notSep _ hsep']
        cases hsl : pySplitlines (A ++ '\n' :: B) with
        | nil =>
          exact absurd hsl (by
            cases A with
            | nil => exact pySplitlines_ne_nil '\n' B
            | cons x xs => exact pySplitlines_ne_nil x (xs ++ '\n' :: B))
        | cons h0 r0 =>
          have ih' := ih (B := B)
          rw [hsl] at ih'
          cases hsl2 : pySplitlines (A ++ ['\n']) with
          | nil =>
            exact absurd hsl2 (by
              cases A with
              | nil => exact pySplitlines_ne_nil '\n' []
              | cons x xs => exact pySplitlines_ne_nil x (xs ++ ['\n']))
          | cons h1 r1 =>
            rw [hsl2] at ih'
            rw [List.cons_append] at ih'
            injection ih' with e1 e2
            simp [e1, e2]

theorem pySplitlines_noSep {s : PyStr} (hne : s ≠ []) (h : lineSafe s = true) :
    pySplitlines s = [s] := by
  induction s with
  | nil => exact absurd rfl hne
  | cons c t ih =>
    simp only [lineSafe, List.all_cons, Bool.and_eq_true, Bool.not_eq_true'] at h
    rw [pySplitlines_cons_notSep t h.1]
    cases t with
    | nil => rfl
    | cons b t2 =>
      rw [ih (by simp) (by simp [lineSafe, h.2])]

theorem pySplitlines_cons_sep2 (c : Char) (t : PyStr)
    (hov : ∀ t2, c = '\r' → t = '\n' :: t2 → False) (hsep : isLineSep c = true) :
    pySplitlines (c :: t) = [] :: pySplitlines t := by
  by_cases hc : c = '\r'
  · subst hc
    cases t with
    | nil => decide
    | cons b t2 =>
      have hb : b ≠ '\n' := fun e => hov t2 rfl (by rw [e])
      exact pySplitlines_cons_cr t2 hb
  · exact pySplitlines_cons_sep t hsep hc

theorem pySplitlines_spec (t : PyStr) :
    (∀ l ∈ pySplitlines t, pyContains t l = true) ∧
    (∀ h r, pySplitlines t = h :: r → pyIsPre h t = true) := by
  induction t using pySplitlines.induct with
  | case1 =>
    constructor
    · intro l hl
      simp [pySplitlines] at hl
    · intro h r he
      simp [pySplitlines] at he
  | case2 t2 ih =>
    rw [pySplitlines_crnl]
    constructor
    · intro l hl
      rcases List.mem_cons.1 hl with rfl | hl2
      · exact pyContains_nil_pat _
      · exact pyContains_of_tail _ (pyContains_of_tail _ (ih.1 l hl2))
    · intro h r he
      injection he with e1 e2
      rw [← e1]
      rfl
  | case3 c t hov hsep ih =>
    rw [pySplitlines_cons_sep2 c t hov (by simpa using hsep)]
    constructor
    · intro l hl
      rcases List.mem_cons.1 hl with rfl | hl2
      · exact pyContains_nil_pat _
      · exact pyContains_of_tail _ (ih.1 l hl2)
    · intro h r he
      injection he with e1 e2
      rw [← e1]
      rfl
  | case4 c t hov hsep hnil ih =>
    have hs : isLineSep c = false := by
      rcases hsep2 : isLineSep c with _ | _
      · rfl
      · exact absurd hsep2 hsep
    rw [pySplitlines_cons_notSep t hs, hnil]
    constructor
    · intro l hl
      rcases List.mem_cons.1 hl with rfl | hl2
      · refine pyContains_of_isPre ?_
        simp [pyIsPre]
      · simp at hl2
    · intro h r he
      injection he with e1 e2
      rw [← e1]
      simp [pyIsPre]
  | case5 c t hov hsep h r hsl ih =>
    have hs : isLineSep c = false := by
      rcases hsep2 : isLineSep c with _ | _
      · rfl
      · exact absurd hsep2 hsep
    rw [pySplitlines_cons_notSep t hs, hsl]
    have hpre : pyIsPre (c :: h) (c :: t) = true := by
      simp [pyIsPre, ih.2 h r hsl]
    constructor
    · intro l hl
      rcases List.mem_cons.1 hl with rfl | hl2
      · exact pyContains_of_isPre hpre
      · exact pyContains_of_tail _ (ih.1 l (by rw [hsl]; exact List.mem_cons_of_mem h hl2))
    · intro hh rr he
      injection he with e1 e2
      rw [← e1]
      exact hpre

/-! ## pyReplace and escape_spaces lemmas -/

theorem pyReplaceAux_congr (pat rep : PyStr) :
    ∀ f1 f2 (s : PyStr), s.length ≤ f1 → s.length ≤ f2 →
      pyReplaceAux pat rep f1 s = pyReplaceAux pat rep f2 s := by
  intro f1
  induction f1 with
  | zero =>
    intro f2 s h1 h2
    have hs : s = [] := List.length_eq_zero.1 (Nat.le_zero.1 h1)
    subst hs
    cases f2 <;> rfl
  | succ f ihf =>
    intro f2 s h1 h2
    cases s with
    | nil => cases f2 <;> rfl
    | cons c t =>
      cases f2 with
      | zero => simp at h2
      | succ g =>
        simp only [pyReplaceAux]
        by_cases hc : pat ≠ [] ∧ pyIsPre pat (c :: t) = true
        · rw [if_pos hc, if_pos hc]
          congr 1
          have hd : (t.drop (pat.length - 1)).length ≤ t.length := by
            rw [List.length_drop]
            omega
          simp only [List.length_cons] at h1 h2
          exact ihf g _ (by omega) (by omega)
        · rw [if_neg hc, if_neg hc]
          congr 1
          simp only [List.length_cons] at h1 h2
          exact ihf g t (by omega) (by omega)

theorem pyReplace_cons (pat rep : PyStr) (c : Char) (t : PyStr) :
    pyReplace pat rep (c :: t) =
      if pat ≠ [] ∧ pyIsPre pat (c :: t) = true then
        rep ++ pyReplace pat rep (t.drop (pat.length - 1))
      else c :: pyReplace pat rep t := by
  show pyReplaceAux pat rep (t.length + 1) (c :: t) = _
  simp only [pyReplaceAux]
  by_cases hc : pat ≠ [] ∧ pyIsPre pat (c :: t) = true
  · rw [if_pos hc, if_pos hc]
    congr 1
    exact pyReplaceAux_congr pat rep t.length _ _
      (by rw [List.length_drop]; omega) (le_refl _)
  · rw [if_neg hc, if_neg hc]
    rfl

theorem pyReplace_of_not_contains {pat rep s : PyStr} (h : pyContains s pat = false) :
    pyReplace pat rep s = s := by
  induction s with
  | nil => rfl
  | cons c t ih =>
    rw [pyContains_cons, Bool.or_eq_false_iff] at h
    rw [pyReplace_cons, if_neg]
    · rw [ih h.2]
    · rintro ⟨h1, h2⟩
      rw [h.1] at h2
      exact Bool.false_ne_true h2

theorem escape_spaces_cons (c : Char) (t : PyStr) :
    escape_spaces (c :: t) =
      if c = ' ' then '\\' :: '0' :: '4' :: '0' :: escape_spaces t
      else c :: escape_spaces t := by
  have hS : S " " = [' '] := by decide
  have hR : S "\\040" = ['\\', '0', '4', '0'] := by decide
  unfold escape_spaces
  rw [pyReplace_cons, hS, hR]
  by_cases hc : c = ' '
  · subst hc
    rw [if_pos ⟨by simp, by simp [pyIsPre]⟩, if_pos rfl]
    rfl
  · rw [if_neg, if_neg hc]
    rintro ⟨h1, h2⟩
    simp only [pyIsPre, Bool.and_eq_true, decide_eq_true_eq] at h2
    exact hc h2.1.symm

theorem escape_spaces_chars {s : PyStr} :
    ∀ c ∈ escape_spaces s, c ∈ s ∨ c = '\\' ∨ c = '0' ∨ c = '4' := by
  induction s with
  | nil =>
    intro c hc
    exact absurd hc (by simp [escape_spaces, pyReplace, pyReplaceAux])
  | cons a t ih =>
    intro c hc
    rw [escape_spaces_cons] at hc
    by_cases ha : a = ' '
    · rw [if_pos ha] at hc
      simp only [List.mem_cons] at hc
      rcases hc with rfl | rfl | rfl | rfl | hm
      · exact Or.inr (Or.inl rfl)
      · exact Or.inr (Or.inr (Or.inl rfl))
      · exact Or.inr (Or.inr (Or.inr rfl))
      · exact Or.inr (Or.inr (Or.inl rfl))
      · rcases ih c hm with hs | hx
        · exact Or.inl (List.mem_cons_of_mem a hs)
        · exact Or.inr hx
    · rw [if_neg ha] at hc
      rcases List.mem_cons.1 hc with rfl | hm
      · exact Or.inl (List.mem_cons_self c t)
      · rcases ih c hm with hs | hx
        · exact Or.inl (List.mem_cons_of_mem a hs)
        · exact Or.inr hx

theorem escape_spaces_no_space (s : PyStr) : ' ' ∉ escape_spaces s := by
  induction s with
  | nil => simp [escape_spaces, pyReplace, pyReplaceAux]
  | cons a t ih =>
    rw [escape_spaces_cons]
    by_cases ha : a = ' '
    · rw [if_pos ha]
      intro hmem
      simp only [List.mem_cons] at hmem
      rcases hmem with h | h | h | h | hm
      · exact absurd h (by decide)
      · exact absurd h (by decide)
      · exact absurd h (by decide)
      · exact absurd h (by decide)
      · exact ih hm
    · rw [if_neg ha]
      intro hmem
      rcases List.mem_cons.1 hmem with h | hm
      · exact ha h.symm
      · exact ih hm

theorem escape_spaces_ne_nil {s : PyStr} (h : s ≠ []) : escape_spaces s ≠ [] := by
  cases s with
  | nil => exact absurd rfl h
  | cons a t =>
    rw [escape_spaces_cons]
    by_cases ha : a = ' '
    · rw [if_pos ha]; simp
    · rw [if_neg ha]; simp

theorem escape_spaces_getLast {s : PyStr} {c : Char} (h : s.getLast? = some c)
    (hc : c ≠ ' ') : (escape_spaces s).getLast? = some c := by
  induction s with
  | nil => simp at h
  | cons a t ih =>
    cases t with
    | nil =>
      rw [List.getLast?_singleton] at h
      injection h with h
      subst h
      rw [escape_spaces_cons, if_neg hc]
      rfl
    | cons b t2 =>
      have ht : (b :: t2).getLast? = some c := by
        rw [List.getLast?_cons_cons] at h
        exact h
      have hne : escape_spaces (b :: t2) ≠ [] := escape_spaces_ne_nil (by simp)
      rw [escape_spaces_cons]
      by_cases ha : a = ' '
      · rw [if_pos ha]
        have he : ('\\' :: '0' :: '4' :: '0' :: escape_spaces (b :: t2))
            = ['\\', '0', '4', '0'] ++ escape_spaces (b :: t2) := rfl
        rw [he, getLast?_append_right _ hne]
        exact ih ht
      · rw [if_neg ha]
        have he : (a :: escape_spaces (b :: t2)) = [a] ++ escape_spaces (b :: t2) := rfl
        rw [he, getLast?_append_right _ hne]
        exact ih ht

theorem unescape_escape {s : PyStr} (h : '\\' ∉ s) :
    pyReplace (S "\\040") (S " ") (escape_spaces s) = s := by
  have hR : S "\\040" = ['\\', '0', '4', '0'] := by decide
  have hSp : S " " = [' '] := by decide
  induction s with
  | nil => rfl
  | cons c t ih =>
    rw [escape_spaces_cons]
    by_cases hc : c = ' '
    · rw [if_pos hc, pyReplace_cons, if_pos]
      · have hlen : (S "\\040").length - 1 = 3 := by decide
        rw [hlen]
        have hd : List.drop 3 ('0' :: '4' :: '0' :: escape_spaces t) = escape_spaces t := rfl
        rw [hd, ih (fun m => h (List.mem_cons_of_mem c m)), hSp, hc]
        rfl
      · constructor
        · rw [hR]; simp
        · rw [hR]; simp [pyIsPre]
    · rw [if_neg hc, pyReplace_cons, if_neg]
      · rw [ih (fun m => h (List.mem_cons_of_mem c m))]
      · rintro ⟨h1, h2⟩
        obtain ⟨r, hr⟩ := (pyIsPre_eq_iff _ _).1 h2
        rw [hR] at hr
        injection hr with e1 e2
        exact h (e1 ▸ List.mem_cons_self c t)

/-! ## Integer printing and parsing lemmas -/

theorem natToStrAux_congr : ∀ f1 f2 n, n < f1 → n < f2 →
    natToStrAux f1 n = natToStrAux f2 n := by
  intro f1
  induction f1 with
  | zero => intro f2 n h1 h2; omega
  | succ f ihf =>
    intro f2 n h1 h2
    cases f2 with
    | zero => omega
    | succ g =>
      simp only [natToStrAux]
      by_cases hn : n < 10
      · rw [if_pos hn, if_pos hn]
      · rw [if_neg hn, if_neg hn]
        congr 1
        have hd : n / 10 < n := Nat.div_lt_self (by omega) (by omega)
        exact ihf g (n / 10) (by omega) (by omega)

theorem natToStr_eq (n : Nat) :
    natToStr n = if n < 10 then [Nat.digitChar n]
      else natToStr (n / 10) ++ [Nat.digitChar (n % 10)] := by
  show natToStrAux (n + 1) n = _
  simp only [natToStrAux]
  by_cases hn : n < 10
  · rw [if_pos hn, if_pos hn]
  · rw [if_neg hn, if_neg hn]
    congr 1
    have hd : n / 10 < n := Nat.div_lt_self (by omega) (by omega)
    exact natToStrAux_congr n (n / 10 + 1) (n / 10) (by omega) (by omega)

theorem digitChar_toNat {d : Nat} (h : d < 10) : (Nat.digitChar d).toNat = 48 + d := by
  interval_cases d <;> decide

theorem digitChar_isDigit {d : Nat} (h : d < 10) : pyIsDigit (Nat.digitChar d) = true := by
  interval_cases d <;> decide

theorem natToStr_digits (n : Nat) : ∀ c ∈ natToStr n, pyIsDigit c = true := by
  induction n using Nat.strong_induction_on with
  | _ n ih =>
    rw [natToStr_eq]
    by_cases hn : n < 10
    · rw [if_pos hn]
      intro c hc
      rw [List.mem_singleton.1 hc]
      exact digitChar_isDigit hn
    · rw [if_neg hn]
      intro c hc
      rcases List.mem_append.1 hc with hm | hm
      · exact ih (n / 10) (Nat.div_lt_self (by omega) (by omega)) c hm
      · rw [List.mem_singleton.1 hm]
        exact digitChar_isDigit (Nat.mod_lt _ (by omega))

theorem natToStr_ne_nil (n : Nat) : natToStr n ≠ [] := by
  rw [natToStr_eq]
  split <;> simp

theorem digitsVal_append (d : PyStr) (c : Char) :
    digitsVal (d ++ [c]) = 10 * digitsVal d + (c.toNat - 48) := by
  simp [digitsVal, List.foldl_append]

theorem digitsVal_natToStr (n : Nat) : digitsVal (natToStr n) = n := by
  induction n using Nat.strong_induction_on with
  | _ n ih =>
    rw [natToStr_eq]
    by_cases hn : n < 10
    · rw [if_pos hn]
      show digitsVal [Nat.digitChar n] = n
      simp only [digitsVal, List.foldl_cons, List.foldl_nil]
      rw [digitChar_toNat hn]
      omega
    · rw [if_neg hn, digitsVal_append, ih (n / 10) (Nat.div_lt_self (by omega) (by omega)),
        digitChar_toNat (Nat.mod_lt _ (by omega))]
      omega

theorem pyIsSpace_toNat {c : Char} (h : pyIsSpace c = true) : c.toNat ≤ 32 := by
  simp only [pyIsSpace, Bool.or_eq_true, decide_eq_true_eq] at h
  rcases h with (((((((((rfl|rfl)|rfl)|rfl)|rfl)|rfl)|rfl)|rfl)|rfl)|rfl) <;> decide

theorem digit_not_space {c : Char} (h : pyIsDigit c = true) : pyIsSpace c = false := by
  cases hs : pyIsSpace c
  · rfl
  · exfalso
    have h32 := pyIsSpace_toNat hs
    simp only [pyIsDigit, Bool.and_eq_true, decide_eq_true_eq] at h
    omega

theorem pyInt_of_digits {d : PyStr} (hne : d ≠ []) (h : ∀ c ∈ d, pyIsDigit c = true) :
    pyInt d = some (digitsVal d : Int) := by
  unfold pyInt
  rw [pyStrip_eq_self_of_all (fun c hc => digit_not_space (h c hc))]
  cases d with
  | nil => exact absurd rfl hne
  | cons c t =>
    have hcd : pyIsDigit c = true := h c (List.mem_cons_self c t)
    have hc1 : ¬(c = '-') := by
      intro e
      rw [e] at hcd
      exact absurd hcd (by decide)
    have hc2 : ¬(c = '+') := by
      intro e
      rw [e] at hcd
      exact absurd hcd (by decide)
    simp only [hc1, hc2, if_false]
    rw [if_pos (List.all_eq_true.2 (fun c hc => h c hc))]

theorem pyInt_neg_digits {d : PyStr} (hne : d ≠ []) (h : ∀ c ∈ d, pyIsDigit c = true) :
    pyInt ('-' :: d) = some (-(digitsVal d : Int)) := by
  have hall : ∀ c ∈ '-' :: d, pyIsSpace c = false := by
    intro c hc
    rcases List.mem_cons.1 hc with rfl | hm
    · decide
    · exact digit_not_space (h c hm)
  have hred : pyInt ('-' :: d) =
      if d ≠ [] ∧ d.all pyIsDigit = true then some (-(digitsVal d : Int)) else none := by
    unfold pyInt
    rw [pyStrip_eq_self_of_all hall]
    rfl
  rw [hred, if_pos ⟨hne, List.all_eq_true.2 (fun c hc => h c hc)⟩]

theorem pyInt_pyIntToStr (n : Int) : pyInt (pyIntToStr n) = some n := by
  unfold pyIntToStr
  by_cases hn : n < 0
  · rw [if_pos hn, pyInt_neg_digits (natToStr_ne_nil _) (natToStr_digits _),
      digitsVal_natToStr]
    congr 1
    omega
  · rw [if_neg hn]
    rw [pyInt_of_digits (natToStr_ne_nil _) (natToStr_digits _), digitsVal_natToStr]
    congr 1
    omega

theorem pyIntToStr_ne_nil (n : Int) : pyIntToStr n ≠ [] := by
  unfold pyIntToStr
  split
  · simp
  · exact natToStr_ne_nil _

theorem pyIntToStr_chars (n : Int) :
    ∀ c ∈ pyIntToStr n, pyIsDigit c = true ∨ c = '-' := by
  unfold pyIntToStr
  split
  · intro c hc
    rcases List.mem_cons.1 hc with rfl | hm
    · exact Or.inr rfl
    · exact Or.inl (natToStr_digits _ c hm)
  · intro c hc
    exact Or.inl (natToStr_digits _ c hc)

theorem pyIntToStr_not_space (n : Int) : ∀ c ∈ pyIntToStr n, pyIsSpace c = false := by
  intro c hc
  rcases pyIntToStr_chars n c hc with hd | rfl
  · exact digit_not_space hd
  · decide

/-! ## fold lemma for parse_master_options -/

theorem foldl_opt_getLastD {α β : Type} (f : α → Option β) :
    ∀ (l : List α) (init : β),
      l.foldl (fun acc x => (f x).getD acc) init = (l.filterMap f).getLastD init := by
  intro l
  induction l with
  | nil => intro init; rfl
  | cons a l ih =>
    intro init
    rw [List.foldl_cons, List.filterMap_cons]
    cases h : f a with
    | none => simp [h, ih]
    | some b =>
      show List.foldl (fun acc x => (f x).getD acc) b l
          = ((b :: List.filterMap f l).getLastD init)
      rw [ih b, List.getLastD_cons]

/-! ## Claim theorems -/

/-- Claim C2: rendering one map line fails (raises InvalidInput, modelled
as `none`) if and only if at least one of mount_point, host, remote_path
is blank after trimming; otherwise it succeeds and returns a line. -/
theorem C2_build_map_line_blank_iff (pe : PyStr → Bool) (m : EntryMap) :
    build_map_line pe m = none ↔
      (pyStrip (m.mount_point.getD []) = [] ∨ pyStrip (m.host.getD []) = [] ∨
       pyStrip (m.remote_path.getD []) = []) := by
  by_cases hc : (pyStrip (m.mount_point.getD []) = [] ∨ pyStrip (m.host.getD []) = [] ∨
      pyStrip (m.remote_path.getD []) = [])
  · simp only [build_map_line]
    rw [if_pos hc]
    simp [hc]
  · simp only [build_map_line]
    rw [if_neg hc]
    simp [hc]

/-- Claim C3, counterexample: with two parseable `--timeout=` tokens the
code returns the value of the LAST one (7), while the claim states the
FIRST one (5) is used. -/
theorem C3_counterexample :
    (parse_master_options (S "--timeout=5 --timeout=7")).1 = 7 ∧
    claimFirstTimeout (S "--timeout=5 --timeout=7") = 5 ∧
    (parse_master_options (S "--timeout=5 --timeout=7")).1 ≠
      claimFirstTimeout (S "--timeout=5 --timeout=7") := by decide

/-- Claim C3 (amended): `ghost` is true iff the text contains `--ghost`;
`timeout` is the integer of the LAST whitespace-delimited `--timeout=`
token whose payload parses (120 when no such parseable token exists). -/
theorem C3_parse_master_options_spec (t : PyStr) :
    parse_master_options t =
      (((pySplitWS t).filterMap timeoutTokVal).getLastD 120,
       pyContains t (S "--ghost")) := by
  show ((pySplitWS t).foldl _ 120, pyContains t (S "--ghost")) = _
  congr 1
  have hstep : (fun (acc : Int) (tok : PyStr) =>
      if pyIsPre (S "--timeout=") tok = true then
        match pySplitFirst '=' tok with
        | some p =>
          match pyInt p.2 with
          | some n => n
          | none => acc
        | none => acc
      else acc) = (fun (acc : Int) tok => (timeoutTokVal tok).getD acc) := by
    funext acc tok
    unfold timeoutTokVal
    by_cases hp : pyIsPre (S "--timeout=") tok = true
    · rw [if_pos hp, if_pos hp]
      cases pySplitFirst '=' tok with
      | none => rfl
      | some p =>
        show (match pyInt p.2 with | some n => n | none => acc) = (pyInt p.2).getD acc
        cases pyInt p.2 with
        | none => rfl
        | some n => rfl
    · rw [if_neg hp, if_neg hp]
      rfl
  rw [hstep, foldl_opt_getLastD]

/-- Claim C4 (code bug): a persisted state in the documented schema
(`master_options = {timeout: 300, ghost: false}`) is ignored by the CLI's
`--from-state` resolution, which reads the legacy top-level keys
`master_timeout`/`master_ghost` and therefore falls back to the defaults
(120, true). -/
theorem C4_from_state_ignores_master_options :
    resolve_entries_from_state (app_state_to_dict [] 300 false) none none
      = ([], 120, true) ∧
    (app_state_to_dict [] 300 false).master_options = some (300, false) ∧
    ((120 : Int), true) ≠ ((300 : Int), false) := by
  refine ⟨rfl, rfl, by decide⟩

/-- Claim C5, counterexample: `build --write` where the privileged copy
fails (sudo cp exits 1, `temporary = true`) still makes the process exit
with 0, not with the underlying command's exit code 1. -/
theorem C5_counterexample :
    write_config_temporary false 1 = true ∧
    cmd_build_exit true true (write_config_temporary false 1) 0 = 0 ∧
    (0 : Int) ≠ 1 := by decide

/-- Claim C5 (amended): `service`, `ssh-check`, `ls` and `umount` pass the
underlying command's exit code through; `load` returns 0; `build --write
--restart` returns the restart's exit code only when the write was not
temporary; when the privileged copy fails (`temporary = true`) or
`--write` is absent, `build` returns 0 regardless of the underlying
command's exit code. -/
theorem C5_exit_codes (rc restart_rc sudo_rc : Int) (write restart as_root : Bool)
    (temp : Bool) :
    cmd_service_exit rc = rc ∧ cmd_ssh_check_exit rc = rc ∧ cmd_ls_exit rc = rc ∧
    cmd_umount_exit rc = rc ∧ cmd_load_exit = 0 ∧
    (write_config_temporary as_root sudo_rc = true →
      cmd_build_exit write restart (write_config_temporary as_root sudo_rc) restart_rc
        = 0) ∧
    (write = true → restart = true → write_config_temporary as_root sudo_rc = false →
      cmd_build_exit write restart (write_config_temporary as_root sudo_rc) restart_rc
        = restart_rc) ∧
    (write = false → cmd_build_exit write restart temp restart_rc = 0) := by
  refine ⟨rfl, rfl, rfl, rfl, rfl, ?_, ?_, ?_⟩ <;> intros <;>
    simp_all [cmd_build_exit]

/-- Witness for C5: a non-temporary write with `--restart` propagates the
restart exit code 5. -/
theorem C5_exit_codes_witness :
    cmd_build_exit true true (write_config_temporary false 0) 5 = 5 := by
  have h := C5_exit_codes 3 5 0 true true false false
  exact h.2.2.2.2.2.2.1 rfl rfl (by decide)

/-- One call to the discovery cache, as an unfolding equation. -/
theorem discover_hosts_eq (force : Bool) (now : Int) (fresh : List HostCandidate)
    (st : DiscoCache) :
    discover_hosts force now fresh st =
      if force = false ∧ st.cache ≠ [] ∧ now - st.ts < 60 then (st.cache, false, st)
      else (fresh, true, ⟨fresh, now⟩) := rfl

/-- Claim C8, counterexample: when the first (uncached) pass produces an
empty list, a second call 10 seconds later re-invokes the sources
(invoked-flag `true`), contrary to the claim that any second call within
60 seconds is served from the cache. -/
theorem C8_counterexample :
    (discover_hosts false 0 [] ⟨[], 0⟩).1 = [] ∧
    (discover_hosts false 10 [] (discover_hosts false 0 [] ⟨[], 0⟩).2.2).2.1 = true := by
  decide

/-- Claim C8 (amended): if a `force = false` call returns a NON-EMPTY
list, then any second `force = false` call within 60 seconds returns the
identical cached list without invoking the sources; a `force = true` call
always re-invokes the sources. -/
theorem C8_discover_cache (st : DiscoCache) (t1 t2 : Int)
    (f1 f2 f3 : List HostCandidate)
    (h1 : (discover_hosts false t1 f1 st).1 ≠ [])
    (h2 : t2 - (discover_hosts false t1 f1 st).2.2.ts < 60) :
    discover_hosts false t2 f2 ((discover_hosts false t1 f1 st).2.2)
      = ((discover_hosts false t1 f1 st).1, false,
         (discover_hosts false t1 f1 st).2.2) ∧
    (discover_hosts true t2 f3 ((discover_hosts false t1 f1 st).2.2)).2.1 = true := by
  constructor
  · rw [discover_hosts_eq false t1 f1 st] at h1 h2 ⊢
    by_cases hc : (false = false ∧ st.cache ≠ [] ∧ t1 - st.ts < 60)
    · rw [if_pos hc] at h1 h2 ⊢
      rw [discover_hosts_eq, if_pos ⟨rfl, h1, h2⟩]
    · rw [if_neg hc] at h1 h2 ⊢
      rw [discover_hosts_eq, if_pos ⟨rfl, h1, h2⟩]
  · rw [discover_hosts_eq true, if_neg]
    rintro ⟨hf, _⟩
    exact absurd hf (by decide)

/-- Witness for C8: a concrete warm-cache hit. -/
theorem C8_discover_cache_witness :
    discover_hosts false 30 [] ((discover_hosts false 0
        [⟨S "h", none, S "tailscale"⟩] ⟨[], 0⟩).2.2)
      = ((discover_hosts false 0 [⟨S "h", none, S "tailscale"⟩] ⟨[], 0⟩).1, false,
         (discover_hosts false 0 [⟨S "h", none, S "tailscale"⟩] ⟨[], 0⟩).2.2) :=
  (C8_discover_cache ⟨[], 0⟩ 0 30 [⟨S "h", none, S "tailscale"⟩] [] []
    (by decide) (by decide)).1

theorem pySplitlines_line_nl {bad : PyStr} (h : lineSafe bad = true) :
    pySplitlines (bad ++ ['\n']) = [bad] := by
  induction bad with
  | nil => decide
  | cons c t ih =>
    simp only [lineSafe, List.all_cons, Bool.and_eq_true, Bool.not_eq_true'] at h
    rw [List.cons_append, pySplitlines_cons_notSep _ h.1,
      ih (by simpa [lineSafe] using h.2)]

/-- Claim C9, counterexample: starting from `##user_allow_other`, the
first enable produces `#user_allow_other` (Python's `replace` consumes
the second `#` as part of the matched occurrence), and the SECOND call
changes the file again — it is not a no-op. -/
theorem C9_counterexample :
    enable_user_allow_other (S "##user_allow_other") = S "#user_allow_other" ∧
    enable_user_allow_other (enable_user_allow_other (S "##user_allow_other"))
      = S "user_allow_other" ∧
    enable_user_allow_other (enable_user_allow_other (S "##user_allow_other"))
      ≠ enable_user_allow_other (S "##user_allow_other") := by decide

/-- Claim C9 (amended): starting from contents that do not contain the
substring `user_allow_other` (in particular an absent or fresh file), one
enable leaves exactly one active `user_allow_other` line and the second
call is a no-op on the contents. -/
theorem C9_enable_user_allow_other_idem (txt : PyStr)
    (h : pyContains txt (S "user_allow_other") = false) :
    activeUserAllowOtherLines (enable_user_allow_other txt) = 1 ∧
    enable_user_allow_other (enable_user_allow_other txt)
      = enable_user_allow_other txt := by
  have hU : S "user_allow_other" ≠ [] := by decide
  have hUnl : ('\n' ∉ S "user_allow_other") := by decide
  have hcond : ¬(txt ≠ [] ∧ pyContains txt (S "user_allow_other") = true) := by
    rintro ⟨h1, h2⟩
    rw [h] at h2
    exact absurd h2 (by decide)
  have h1 : enable_user_allow_other txt
      = (if txt ≠ [] then txt ++ S "\n" else []) ++ S "user_allow_other\n" := by
    unfold enable_user_allow_other
    rw [if_neg hcond]
  cases txt with
  | nil =>
    rw [h1]
    constructor <;> decide
  | cons c t =>
    have hnew : enable_user_allow_other (c :: t)
        = (c :: t) ++ '\n' :: (S "user_allow_other" ++ ['\n']) := by
      rw [h1, if_pos (by simp)]
      have e1 : S "\n" = ['\n'] := by decide
      have e2 : S "user_allow_other\n" = S "user_allow_other" ++ ['\n'] := by decide
      rw [e1, e2, List.append_assoc]
      rfl
    have hsplit : pySplitlines (enable_user_allow_other (c :: t))
        = pySplitlines ((c :: t) ++ ['\n']) ++ [S "user_allow_other"] := by
      rw [hnew, pySplitlines_append_nl]
      congr 1
    constructor
    · unfold activeUserAllowOtherLines
      rw [hsplit, List.filter_append]
      have hfil : (pySplitlines ((c :: t) ++ ['\n'])).filter
          (fun l => pyStrip l = S "user_allow_other") = [] := by
        refine List.filter_eq_nil_iff.2 ?_
        intro l hl
        simp only [decide_eq_true_eq]
        intro hstrip
        have hc1 : pyContains ((c :: t) ++ ['\n']) l = true :=
          (pySplitlines_spec _).1 l hl
        have hc2 : pyContains l (S "user_allow_other") = true := by
          have hps := pyContains_pyStrip l
          rw [hstrip] at hps
          exact hps
        have hc3 : pyContains ((c :: t) ++ ['\n']) (S "user_allow_other") = true :=
          pyContains_trans hc1 hc2
        rw [pyContains_append_last _ _ '\n' hU hUnl, h] at hc3
        exact absurd hc3 (by decide)
      rw [hfil]
      decide
    · have hcontains : pyContains (enable_user_allow_other (c :: t))
          (S "user_allow_other") = true := by
        rw [hnew]
        refine (pyContains_eq_iff _ _).2 ⟨(c :: t) ++ ['\n'], ['\n'], by simp⟩
      have hne2 : enable_user_allow_other (c :: t) ≠ [] := by
        rw [hnew]
        simp
      have hnotp : pyContains (enable_user_allow_other (c :: t))
          (S "#user_allow_other") = false := by
        rw [hnew]
        have hsepc : pyContains ((c :: t) ++ '\n' :: (S "user_allow_other" ++ ['\n']))
            (S "#user_allow_other")
            = (pyContains (c :: t) (S "#user_allow_other") ||
               pyContains (S "user_allow_other" ++ ['\n']) (S "#user_allow_other")) :=
          pyContains_append_sep _ _ _ '\n' (by decide) (by decide)
        rw [hsepc]
        have hA : pyContains (c :: t) (S "#user_allow_other") = false := by
          cases hq : pyContains (c :: t) (S "#user_allow_other")
          · rfl
          · exfalso
            have hP : S "#user_allow_other" = '#' :: S "user_allow_other" := by decide
            rw [hP] at hq
            have htl := pyContains_pat_tail hq
            rw [h] at htl
            exact absurd htl (by decide)
        have hB : pyContains (S "user_allow_other" ++ ['\n'])
            (S "#user_allow_other") = false := by decide
        rw [hA, hB]
        rfl
      have hrepl : enable_user_allow_other (enable_user_allow_other (c :: t))
          = pyReplace (S "#user_allow_other") (S "user_allow_other")
              (enable_user_allow_other (c :: t)) := by
        conv_lhs => rw [enable_user_allow_other]
        rw [if_pos ⟨hne2, hcontains⟩]
      rw [hrepl, pyReplace_of_not_contains hnotp]

/-- Witness for C9: a fresh comment-only fuse.conf. -/
theorem C9_enable_user_allow_other_idem_witness :
    activeUserAllowOtherLines (enable_user_allow_other (S "# fuse conf")) = 1 ∧
    enable_user_allow_other (enable_user_allow_other (S "# fuse conf"))
      = enable_user_allow_other (S "# fuse conf") :=
  C9_enable_user_allow_other_idem (S "# fuse conf") (by decide)

/-- Unfolding one attempt of the sudo loop. -/
theorem run_sudo_go_succ (cmd : PyStr) (askAvail : Bool) (ask : Nat → Option PyStr)
    (runs : Nat → RunRes) (n i : Nat) (cached : Option PyStr) :
    run_sudo_go cmd askAvail ask runs (n + 1) i cached =
      if sudoAttemptPass cached askAvail ask i = [] then
        ((1, [], S "sudo password not provided"), cached)
      else
        match runs i with
        | RunRes.timeout => ((124, [], S "Timeout executing: " ++ cmd), cached)
        | RunRes.finished rc out err =>
          if rc = 0 then ((rc, out, err), some (sudoAttemptPass cached askAvail ask i))
          else if sudoRetryTrigger rc err = true then
            run_sudo_go cmd askAvail ask runs n (i + 1) none
          else ((rc, out, err), cached) := rfl

/-- Claim C6: the interactive sudo loop — no obtainable password fails
immediately; a zero exit caches the password and returns the result; a
timeout returns (124, "", "Timeout executing: <cmd>") with no retry; an
authentication-style failure (matching error text or exit code 1) clears
the cache and retries; any other non-zero result is returned as-is; after
two such failed attempts the result is (1, "", "sudo authentication
failed"). -/
theorem C6_run_sudo_loop (cmd : PyStr) (askAvail : Bool) (ask : Nat → Option PyStr)
    (runs : Nat → RunRes) (cached : Option PyStr) :
    (sudoAttemptPass cached askAvail ask 0 = [] →
       run_sudo_interactive cmd askAvail ask runs cached
         = ((1, [], S "sudo password not provided"), cached)) ∧
    (∀ out err, sudoAttemptPass cached askAvail ask 0 ≠ [] →
       runs 0 = RunRes.finished 0 out err →
       run_sudo_interactive cmd askAvail ask runs cached
         = ((0, out, err), some (sudoAttemptPass cached askAvail ask 0))) ∧
    (sudoAttemptPass cached askAvail ask 0 ≠ [] → runs 0 = RunRes.timeout →
       run_sudo_interactive cmd askAvail ask runs cached
         = ((124, [], S "Timeout executing: " ++ cmd), cached)) ∧
    (∀ rc out err, sudoAttemptPass cached askAvail ask 0 ≠ [] →
       runs 0 = RunRes.finished rc out err → rc ≠ 0 →
       sudoRetryTrigger rc err = true →
       run_sudo_interactive cmd askAvail ask runs cached
         = run_sudo_go cmd askAvail ask runs 1 1 none) ∧
    (∀ rc out err, sudoAttemptPass cached askAvail ask 0 ≠ [] →
       runs 0 = RunRes.finished rc out err → rc ≠ 0 →
       sudoRetryTrigger rc err = false →
       run_sudo_interactive cmd askAvail ask runs cached = ((rc, out, err), cached)) ∧
    (∀ rc1 o1 e1 rc2 o2 e2, sudoAttemptPass cached askAvail ask 0 ≠ [] →
       runs 0 = RunRes.finished rc1 o1 e1 → rc1 ≠ 0 →
       sudoRetryTrigger rc1 e1 = true →
       sudoAttemptPass none askAvail ask 1 ≠ [] →
       runs 1 = RunRes.finished rc2 o2 e2 → rc2 ≠ 0 →
       sudoRetryTrigger rc2 e2 = true →
       run_sudo_interactive cmd askAvail ask runs cached
         = ((1, [], S "sudo authentication failed"), none)) := by
  refine ⟨?_, ?_, ?_, ?_, ?_, ?_⟩
  · intro hp
    rw [run_sudo_interactive, run_sudo_go_succ, if_pos hp]
  · intro out err hp hr
    rw [run_sudo_interactive, run_sudo_go_succ, if_neg hp, hr]
    simp
  · intro hp hr
    rw [run_sudo_interactive, run_sudo_go_succ, if_neg hp, hr]
  · intro rc out err hp hr hrc htrig
    rw [run_sudo_interactive, run_sudo_go_succ, if_neg hp, hr]
    simp [hrc, htrig]
  · intro rc out err hp hr hrc htrig
    rw [run_sudo_interactive, run_sudo_go_succ, if_neg hp, hr]
    simp [hrc, htrig]
  · intro rc1 o1 e1 rc2 o2 e2 hp hr1 hrc1 htrig1 hp2 hr2 hrc2 htrig2
    rw [run_sudo_interactive, run_sudo_go_succ, if_neg hp, hr1]
    simp only [hrc1, htrig1, if_false, if_true, ite_true, ite_false]
    rw [run_sudo_go_succ, if_neg hp2, hr2]
    simp [hrc2, htrig2]
    rfl

/-- Witness for C6: two authentication failures in a row exhaust the two
attempts. -/
theorem C6_run_sudo_loop_witness :
    run_sudo_interactive (S "cp a b") true (fun _ => some (S "pw"))
        (fun _ => RunRes.finished 1 [] (S "Sorry, try again.")) none
      = ((1, [], S "sudo authentication failed"), none) := by
  have h := C6_run_sudo_loop (S "cp a b") true (fun _ => some (S "pw"))
    (fun _ => RunRes.finished 1 [] (S "Sorry, try again.")) none
  exact h.2.2.2.2.2 1 [] (S "Sorry, try again.") 1 [] (S "Sorry, try again.")
    (by decide) rfl (by decide) (by decide) (by decide) rfl (by decide) (by decide)

/-- Claim C7: the parser is a total function on all texts (it is defined
for every input by construction); a line is skipped exactly when its strip
is blank, starts with `#`, or its body fails to parse (any modelled
exception); and inserting such a line anywhere in a map text leaves the
parse result unchanged — parsing continues with the remaining lines. -/
theorem C7_parse_map_text_total_skip (raw A B bad : PyStr)
    (hsafe : lineSafe bad = true) (hskip : lineEntry bad = none) :
    (lineEntry raw = none ↔
      (pyStrip raw = [] ∨ pyIsPre (S "#") (pyStrip raw) = true ∨
       parseMapLine (pyStrip raw) = none)) ∧
    parse_map_text (A ++ '\n' :: (bad ++ '\n' :: B))
      = parse_map_text (A ++ '\n' :: B) := by
  constructor
  · unfold lineEntry
    by_cases h1 : pyStrip raw = []
    · simp [h1]
    · rw [if_neg h1]
      by_cases h2 : pyIsPre (S "#") (pyStrip raw) = true
      · simp [h1, h2]
      · simp [h1, h2]
  · have hA1 : (A ++ '\n' :: (bad ++ '\n' :: B)) ≠ [] := by simp
    have hA2 : (A ++ '\n' :: B) ≠ [] := by simp
    unfold parse_map_text
    rw [if_neg hA1, if_neg hA2]
    rw [pySplitlines_append_nl A (bad ++ '\n' :: B), pySplitlines_append_nl bad B,
      pySplitlines_append_nl A B, pySplitlines_line_nl hsafe]
    rw [List.filterMap_append, List.filterMap_append, List.filterMap_append]
    simp [hskip]

/-- Witness for C7: a corrupt line between two well-formed lines
contributes nothing. -/
theorem C7_parse_map_text_total_skip_witness :
    (lineEntry (S "# banner") = none ↔
      (pyStrip (S "# banner") = [] ∨
       pyIsPre (S "#") (pyStrip (S "# banner")) = true ∨
       parseMapLine (pyStrip (S "# banner")) = none)) ∧
    parse_map_text (S "/m -fstype=fuse.sshfs :h:/r" ++ '\n' ::
        (S "corrupt" ++ '\n' :: S "/n -fstype=x,uid=7 :g:/q"))
      = parse_map_text (S "/m -fstype=fuse.sshfs :h:/r" ++ '\n' ::
          S "/n -fstype=x,uid=7 :g:/q") :=
  C7_parse_map_text_total_skip (S "# banner") (S "/m -fstype=fuse.sshfs :h:/r")
    (S "/n -fstype=x,uid=7 :g:/q") (S "corrupt") (by decide) (by decide)

/-- Claim C10: `build_map_line` treats an absent `allow_other` key as
false, while `SshfsEntry` defaults it to true, so the same minimal
mapping renders differently directly versus after a
`from_dict`/`to_dict` round through the domain record. -/
theorem C10_allow_other_default_mismatch :
    (∀ (pe : PyStr → Bool) (m : EntryMap), m.allow_other = none →
       build_map_line pe m = build_map_line pe { m with allow_other := some false }) ∧
    (∀ (m : EntryMap) (e : SshfsEntry), m.allow_other = none →
       sshfs_entry_from_dict m = some e → e.allow_other = true) ∧
    ((build_map_line (fun _ => false)
        { mount_point := some (S "/mnt/x"), host := some (S "h"),
          remote_path := some (S "/r") }).map
        (fun l => pyContains l (S "allow_other")) = some false) ∧
    (((sshfs_entry_from_dict
        { mount_point := some (S "/mnt/x"), host := some (S "h"),
          remote_path := some (S "/r") }).bind
        (fun e => build_map_line (fun _ => false) (sshfs_entry_to_dict e))).map
        (fun l => pyContains l (S "allow_other")) = some true) ∧
    (build_map_line (fun _ => false)
        { mount_point := some (S "/mnt/x"), host := some (S "h"),
          remote_path := some (S "/r") }
      ≠ (sshfs_entry_from_dict
          { mount_point := some (S "/mnt/x"), host := some (S "h"),
            remote_path := some (S "/r") }).bind
          (fun e => build_map_line (fun _ => false) (sshfs_entry_to_dict e))) := by
  refine ⟨?_, ?_, by decide, by decide, by decide⟩
  · intro pe m hm
    cases m
    dsimp only at hm
    subst hm
    rfl
  · intro m e hm he
    rcases m with ⟨mp, u, ho, rp, ft, idf, uid, gid, um, ao, rec, dc, sai, sac, ex⟩
    dsimp only at hm
    subst hm
    cases mp <;> cases ho <;> cases rp <;>
      simp only [sshfs_entry_from_dict, Option.some.injEq, reduceCtorEq] at he
    rw [← he]
    rfl

/-- Witness for C10: the generic missing-key-is-false fact at the minimal
mapping. -/
theorem C10_allow_other_default_mismatch_witness :
    build_map_line (fun _ => false)
        { mount_point := some (S "/mnt/x"), host := some (S "h"),
          remote_path := some (S "/r") }
      = build_map_line (fun _ => false)
          { mount_point := some (S "/mnt/x"), host := some (S "h"),
            remote_path := some (S "/r"), allow_other := some false } :=
  C10_allow_other_default_mismatch.1 (fun _ => false)
    { mount_point := some (S "/mnt/x"), host := some (S "h"),
      remote_path := some (S "/r") } rfl

set_option maxRecDepth 4096 in
/-- Claim C1, counterexample: the entry with mount point `/a b` (a space;
the validator allows it — it only requires an absolute path) renders to a
line whose first space splits inside the mount point, so parsing the
rendered line yields NO entry instead of one equal entry. -/
theorem C1_counterexample :
    validate_entry (sshfs_entry_to_dict
      { mount_point := S "/a b", host := S "h", remote_path := S "/r" }) = true ∧
    (build_map_line (fun _ => false) (sshfs_entry_to_dict
        { mount_point := S "/a b", host := S "h", remote_path := S "/r" })).map
      (fun line => (parse_map_text line).length) = some 0 := by decide

/-! ## Lemmas for the C1 round-trip -/

theorem pyHasChar_iff (s : PyStr) (c : Char) : pyHasChar s c = true ↔ c ∈ s := by
  induction s with
  | nil => simp [pyHasChar]
  | cons a t ih =>
    simp only [pyHasChar, Bool.or_eq_true, decide_eq_true_eq, ih, List.mem_cons]
    exact or_congr eq_comm Iff.rfl

theorem pyHasChar_false_iff (s : PyStr) (c : Char) : pyHasChar s c = false ↔ c ∉ s := by
  constructor
  · intro h hm
    rw [(pyHasChar_iff s c).2 hm] at h
    cases h
  · intro h
    cases hh : pyHasChar s c with
    | false => rfl
    | true => exact absurd ((pyHasChar_iff s c).1 hh) h

theorem noWS_all {s : PyStr} (h : noWS s = true) : ∀ c ∈ s, pyIsSpace c = false := by
  intro c hc
  have := (List.all_eq_true.1 h) c hc
  simpa using this

theorem noWS_strip {s : PyStr} (h : noWS s = true) : pyStrip s = s :=
  pyStrip_eq_self_of_all (noWS_all h)

theorem noWS_no_space {s : PyStr} (h : noWS s = true) : ' ' ∉ s := by
  intro hm
  have := noWS_all h ' ' hm
  exact absurd this (by decide)

theorem isLineSep_isSpace {c : Char} (h : isLineSep c = true) : pyIsSpace c = true := by
  simp only [isLineSep, Bool.or_eq_true, decide_eq_true_eq] at h
  rcases h with ((((((rfl|rfl)|rfl)|rfl)|rfl)|rfl)|rfl) <;> decide

theorem noWS_lineSafe {s : PyStr} (h : noWS s = true) : lineSafe s = true := by
  refine List.all_eq_true.2 ?_
  intro c hc
  cases hl : isLineSep c with
  | false => simp
  | true =>
    have := noWS_all h c hc
    rw [isLineSep_isSpace hl] at this
    cases this

theorem cleanTok_parts {s : PyStr} (h : cleanTok s = true) :
    noWS s = true ∧ ',' ∉ s := by
  simp only [cleanTok, Bool.and_eq_true, Bool.not_eq_true'] at h
  exact ⟨h.1.2, (pyHasChar_false_iff s ',').1 h.2⟩

theorem optStep_keyval (acc : OptAcc) (k v : PyStr) (hk : '=' ∉ k) :
    optStep acc (k ++ '=' :: v) =
      (if k = S "IdentityFile" then { acc with identity_file := v }
       else if k = S "uid" then { acc with uid := v }
       else if k = S "gid" then { acc with gid := v }
       else if k = S "umask" then { acc with umask := v }
       else if k = S "ServerAliveInterval" then { acc with sai := v }
       else if k = S "ServerAliveCountMax" then { acc with sac := v }
       else { acc with extra := acc.extra ++ [k ++ '=' :: v] }) := by
  unfold optStep
  have hc : pyHasChar (k ++ '=' :: v) '=' = true :=
    (pyHasChar_iff _ _).2 (List.mem_append_right k (List.mem_cons_self _ _))
  rw [hc, if_pos rfl, pySplitFirst_eq '=' k v hk]

theorem optStep_uid (acc : OptAcc) (v : PyStr) :
    optStep acc (S "uid=" ++ v) = { acc with uid := v } := by
  have he : S "uid=" ++ v = S "uid" ++ '=' :: v := by
    rw [show S "uid=" = S "uid" ++ ['='] by decide, List.append_assoc]
    rfl
  rw [he, optStep_keyval acc (S "uid") v (by decide), if_neg (by decide), if_pos rfl]

theorem optStep_gid (acc : OptAcc) (v : PyStr) :
    optStep acc (S "gid=" ++ v) = { acc with gid := v } := by
  have he : S "gid=" ++ v = S "gid" ++ '=' :: v := by
    rw [show S "gid=" = S "gid" ++ ['='] by decide, List.append_assoc]
    rfl
  rw [he, optStep_keyval acc (S "gid") v (by decide), if_neg (by decide),
    if_neg (by decide), if_pos rfl]

theorem optStep_umask (acc : OptAcc) (v : PyStr) :
    optStep acc (S "umask=" ++ v) = { acc with umask := v } := by
  have he : S "umask=" ++ v = S "umask" ++ '=' :: v := by
    rw [show S "umask=" = S "umask" ++ ['='] by decide, List.append_assoc]
    rfl
  rw [he, optStep_keyval acc (S "umask") v (by decide), if_neg (by decide),
    if_neg (by decide), if_neg (by decide), if_pos rfl]

theorem optStep_sai (acc : OptAcc) (v : PyStr) :
    optStep acc (S "ServerAliveInterval=" ++ v) = { acc with sai := v } := by
  have he : S "ServerAliveInterval=" ++ v = S "ServerAliveInterval" ++ '=' :: v := by
    rw [show S "ServerAliveInterval=" = S "ServerAliveInterval" ++ ['='] by decide,
      List.append_assoc]
    rfl
  rw [he, optStep_keyval acc (S "ServerAliveInterval") v (by decide),
    if_neg (by decide), if_neg (by decide), if_neg (by decide), if_neg (by decide),
    if_pos rfl]

theorem optStep_sac (acc : OptAcc) (v : PyStr) :
    optStep acc (S "ServerAliveCountMax=" ++ v) = { acc with sac := v } := by
  have he : S "ServerAliveCountMax=" ++ v = S "ServerAliveCountMax" ++ '=' :: v := by
    rw [show S "ServerAliveCountMax=" = S "ServerAliveCountMax" ++ ['='] by decide,
      List.append_assoc]
    rfl
  rw [he, optStep_keyval acc (S "ServerAliveCountMax") v (by decide),
    if_neg (by decide), if_neg (by decide), if_neg (by decide), if_neg (by decide),
    if_neg (by decide), if_pos rfl]

theorem optStep_bare (acc : OptAcc) (tok : PyStr) (hk : '=' ∉ tok) :
    optStep acc tok =
      (if tok = S "allow_other" then { acc with allow_other := true }
       else if tok = S "reconnect" then { acc with reconnect := true }
       else if tok = S "delay_connect" then { acc with delay_connect := true }
       else { acc with extra := acc.extra ++ [tok] }) := by
  unfold optStep
  rw [(pyHasChar_false_iff _ _).2 hk]
  simp only [Bool.false_eq_true, if_false]

theorem optStep_allow (acc : OptAcc) :
    optStep acc (S "allow_other") = { acc with allow_other := true } := by
  rw [optStep_bare acc _ (by decide), if_pos rfl]

theorem optStep_reconnect (acc : OptAcc) :
    optStep acc (S "reconnect") = { acc with reconnect := true } := by
  rw [optStep_bare acc _ (by decide), if_neg (by decide), if_pos rfl]

theorem optStep_delay (acc : OptAcc) :
    optStep acc (S "delay_connect") = { acc with delay_connect := true } := by
  rw [optStep_bare acc _ (by decide), if_neg (by decide), if_neg (by decide),
    if_pos rfl]

theorem optStep_neutral (acc : OptAcc) (tok : PyStr) (h : specialOptTok tok = false) :
    optStep acc tok = { acc with extra := acc.extra ++ [tok] } := by
  unfold specialOptTok at h
  unfold optStep
  cases hsp : pySplitFirst '=' tok with
  | none =>
    have hnc : pyHasChar tok '=' = false :=
      (pyHasChar_false_iff _ _).2 ((pySplitFirst_eq_none_iff _ _).1 hsp)
    rw [hnc]
    simp only [Bool.false_eq_true, if_false]
    rw [hsp] at h
    simp only [Bool.or_eq_false_iff, decide_eq_false_iff_not] at h
    rw [if_neg h.1.1, if_neg h.1.2, if_neg h.2]
  | some p =>
    have hcx : '=' ∈ tok := by
      by_contra hq
      rw [(pySplitFirst_eq_none_iff '=' tok).2 hq] at hsp
      cases hsp
    rw [(pyHasChar_iff _ _).2 hcx, if_pos rfl]
    rw [hsp] at h
    obtain ⟨k, v⟩ := p
    simp only [Bool.or_eq_false_iff, decide_eq_false_iff_not] at h
    obtain ⟨⟨⟨⟨⟨h1, h2⟩, h3⟩, h4⟩, h5⟩, h6⟩ := h
    show (if k = S "IdentityFile" then { acc with identity_file := v }
       else if k = S "uid" then { acc with uid := v }
       else if k = S "gid" then { acc with gid := v }
       else if k = S "umask" then { acc with umask := v }
       else if k = S "ServerAliveInterval" then { acc with sai := v }
       else if k = S "ServerAliveCountMax" then { acc with sac := v }
       else { acc with extra := acc.extra ++ [tok] }) = _
    rw [if_neg h1, if_neg h2, if_neg h3, if_neg h4, if_neg h5, if_neg h6]

theorem foldl_optStep_neutral (toks : List PyStr)
    (h : ∀ tk ∈ toks, specialOptTok tk = false) :
    ∀ acc, toks.foldl optStep acc = { acc with extra := acc.extra ++ toks } := by
  induction toks with
  | nil => intro acc; simp
  | cons a l ih =>
    intro acc
    rw [List.foldl_cons, optStep_neutral acc a (h a (List.mem_cons_self a l)),
      ih (fun tk m => h tk (List.mem_cons_of_mem a m))]
    simp

theorem foldl_optStep_cond (b : Bool) (tok : PyStr) (rest : List PyStr)
    (acc acc' : OptAcc) (hstep : optStep acc tok = acc') :
    ((if b then [tok] else []) ++ rest).foldl optStep acc
      = rest.foldl optStep (if b then acc' else acc) := by
  cases b <;> simp [hstep]

theorem pyJoinSep_cons2 (sep x y : PyStr) (r : List PyStr) :
    pyJoinSep sep (x :: y :: r) = x ++ sep ++ pyJoinSep sep (y :: r) := rfl

theorem pyJoinSep_chars (sep : PyStr) (ts : List PyStr) :
    ∀ c ∈ pyJoinSep sep ts, c ∈ sep ∨ ∃ t ∈ ts, c ∈ t := by
  induction ts with
  | nil =>
    intro c hc
    simp [pyJoinSep] at hc
  | cons a ts ih =>
    cases ts with
    | nil =>
      intro c hc
      exact Or.inr ⟨a, List.mem_cons_self a [], hc⟩
    | cons b r =>
      intro c hc
      rw [pyJoinSep_cons2] at hc
      rcases List.mem_append.1 hc with hc1 | hc2
      · rcases List.mem_append.1 hc1 with hca | hcs
        · exact Or.inr ⟨a, List.mem_cons_self a _, hca⟩
        · exact Or.inl hcs
      · rcases ih c hc2 with hs | ⟨t, ht, hct⟩
        · exact Or.inl hs
        · exact Or.inr ⟨t, List.mem_cons_of_mem a ht, hct⟩

theorem map_pyStrip_id {ts : List PyStr} (h : ∀ t ∈ ts, pyStrip t = t) :
    ts.map pyStrip = ts := by
  induction ts with
  | nil => rfl
  | cons a l ih =>
    rw [List.map_cons, h a (List.mem_cons_self a l),
      ih (fun t m => h t (List.mem_cons_of_mem a m))]

theorem length_dropWhile_le (p : Char → Bool) (l : PyStr) :
    (l.dropWhile p).length ≤ l.length := by
  induction l with
  | nil => simp [List.dropWhile]
  | cons a t ih =>
    rw [List.dropWhile_cons]
    split
    · exact le_trans ih (by simp)
    · simp

theorem dropWhile_eq_self_of_length {p : Char → Bool} {l : PyStr}
    (h : (l.dropWhile p).length = l.length) : l.dropWhile p = l := by
  have hsplit := List.takeWhile_append_dropWhile (p := p) (l := l)
  have hlen2 : (l.takeWhile p).length + (l.dropWhile p).length = l.length := by
    rw [← List.length_append, hsplit]
  have htake : l.takeWhile p = [] := List.length_eq_zero.1 (by omega)
  conv_rhs => rw [← hsplit, htake]
  rfl

theorem strip_id_parts {s : PyStr} (h : pyStrip s = s) :
    s.dropWhile pyIsSpace = s ∧ s.reverse.dropWhile pyIsSpace = s.reverse := by
  have hlen : (pyStrip s).length = s.length := by rw [h]
  have e1 : ((s.dropWhile pyIsSpace).reverse.dropWhile pyIsSpace).length
      = (pyStrip s).length := by
    unfold pyStrip
    rw [List.length_reverse]
  have l1 : ((s.dropWhile pyIsSpace).reverse.dropWhile pyIsSpace).length
      ≤ (s.dropWhile pyIsSpace).length := by
    refine le_trans (length_dropWhile_le _ _) ?_
    rw [List.length_reverse]
  have l2 : (s.dropWhile pyIsSpace).length ≤ s.length := length_dropWhile_le _ _
  have hdl : (s.dropWhile pyIsSpace).length = s.length := by omega
  have hd : s.dropWhile pyIsSpace = s := dropWhile_eq_self_of_length hdl
  refine ⟨hd, ?_⟩
  refine dropWhile_eq_self_of_length ?_
  rw [hd] at e1
  rw [e1, hlen, List.length_reverse]

theorem strip_id_ends {s : PyStr} (h : pyStrip s = s) :
    s.head?.all (fun c => !pyIsSpace c) = true ∧
    s.getLast?.all (fun c => !pyIsSpace c) = true := by
  obtain ⟨hd, hr⟩ := strip_id_parts h
  constructor
  · cases hs : s with
    | nil => rfl
    | cons a t =>
      simp only [List.head?_cons, Option.all_some, Bool.not_eq_true']
      cases ha : pyIsSpace a with
      | false => rfl
      | true =>
        exfalso
        rw [hs, List.dropWhile_cons, if_pos ha] at hd
        have := congrArg List.length hd
        have h2 := length_dropWhile_le pyIsSpace t
        simp at this
        omega
  · cases hs : s.reverse with
    | nil => simp [List.reverse_eq_nil_iff.1 hs]
    | cons a t =>
      have hl : s.getLast? = some a := by
        rw [← List.head?_reverse, hs, List.head?_cons]
      rw [hl]
      simp only [Option.all_some, Bool.not_eq_true']
      cases ha : pyIsSpace a with
      | false => rfl
      | true =>
        exfalso
        rw [hs, List.dropWhile_cons, if_pos ha] at hr
        have := congrArg List.length hr
        have h2 := length_dropWhile_le pyIsSpace t
        simp at this
        omega

theorem C1_build_eq (pe : PyStr → Bool) (e : SshfsEntry) (toks : List PyStr)
    (hmp_ne : e.mount_point ≠ []) (hh_ne : e.host ≠ []) (hrp_ne : e.remote_path ≠ [])
    (hmp : noWS e.mount_point = true) (huser : noWS e.user = true)
    (hhost : noWS e.host = true)
    (hrp_strip : pyStrip e.remote_path = e.remote_path)
    (hft : noWS e.fstype = true) (hft_ne : e.fstype ≠ [])
    (hid : e.identity_file = [])
    (huid : noWS e.uid = true) (hgid : noWS e.gid = true) (hum : noWS e.umask = true)
    (hex1 : pyStrip e.extra_options = e.extra_options)
    (hex2 : ((pySplitAll ',' e.extra_options).map pyStrip).filter
      (fun tok => tok ≠ []) = toks) :
    build_map_line pe (sshfs_entry_to_dict e) = some (
      e.mount_point ++ ' ' :: pyJoinSep (S ",")
        ([S "-fstype=" ++ e.fstype] ++
         (if e.allow_other then [S "allow_other"] else []) ++
         (if e.uid ≠ [] then [S "uid=" ++ e.uid] else []) ++
         (if e.gid ≠ [] then [S "gid=" ++ e.gid] else []) ++
         (if e.umask ≠ [] then [S "umask=" ++ e.umask] else []) ++
         [S "ServerAliveInterval=" ++ pyIntToStr e.server_alive_interval] ++
         [S "ServerAliveCountMax=" ++ pyIntToStr e.server_alive_count] ++
         (if e.reconnect then [S "reconnect"] else []) ++
         (if e.delay_connect then [S "delay_connect"] else []) ++ toks)
      ++ ' ' :: (':' :: ((if e.user ≠ [] then e.user ++ ['@'] else []) ++ e.host ++
         ':' :: escape_spaces e.remote_path))) := by
  have hsmp := noWS_strip hmp
  have hsu := noWS_strip huser
  have hsh := noWS_strip hhost
  have hsft := noWS_strip hft
  have hsuid := noWS_strip huid
  have hsgid := noWS_strip hgid
  have hsum := noWS_strip hum
  have hsai := pyStrip_eq_self_of_all (pyIntToStr_not_space e.server_alive_interval)
  have hsac := pyStrip_eq_self_of_all (pyIntToStr_not_space e.server_alive_count)
  unfold build_map_line sshfs_entry_to_dict
  simp only [Option.getD_some]
  rw [hsmp, hsu, hsh, hrp_strip, hsuid, hsgid, hsum, hid, hsai, hsac, hex1, hex2]
  rw [if_neg hft_ne, hsft, if_neg hft_ne]
  rw [if_neg (by simp [hmp_ne, hh_ne, hrp_ne])]
  rw [show pyStrip ([] : PyStr) = [] from rfl]
  rw [if_neg (by simp)]
  rw [if_pos (pyIntToStr_ne_nil e.server_alive_interval),
    if_pos (pyIntToStr_ne_nil e.server_alive_count)]
  simp only [List.append_nil, List.nil_append]

theorem lineSafe_append (a b : PyStr) :
    lineSafe (a ++ b) = (lineSafe a && lineSafe b) := by
  simp [lineSafe, List.all_append]

theorem lineSafe_cons (c : Char) (t : PyStr) :
    lineSafe (c :: t) = (!isLineSep c && lineSafe t) := by
  simp [lineSafe]

theorem pyJoinSep_cons_ne (sep a : PyStr) {X : List PyStr} (h : X ≠ []) :
    pyJoinSep sep (a :: X) = a ++ sep ++ pyJoinSep sep X := by
  cases X with
  | nil => exact absurd rfl h
  | cons b r => exact pyJoinSep_cons2 sep a b r

theorem foldl_optStep_condP (c : Prop) [Decidable c] (tok : PyStr)
    (rest : List PyStr) (acc acc' : OptAcc) (hstep : optStep acc tok = acc') :
    ((if c then [tok] else []) ++ rest).foldl optStep acc
      = rest.foldl optStep (if c then acc' else acc) := by
  by_cases hc : c <;> simp [hc, hstep]

theorem comma_not_mem_pyIntToStr (n : Int) : ',' ∉ pyIntToStr n := by
  intro hm
  rcases pyIntToStr_chars n ',' hm with hd | he
  · exact absurd hd (by decide)
  · exact absurd he (by decide)

theorem noWS_pyIntToStr (n : Int) : noWS (pyIntToStr n) = true := by
  refine List.all_eq_true.2 ?_
  intro c hc
  simp [pyIntToStr_not_space n c hc]

theorem noWS_append (a b : PyStr) : noWS (a ++ b) = (noWS a && noWS b) := by
  simp [noWS, List.all_append]

theorem mem_ite_singleton {c : Prop} [Decidable c] {tk x : PyStr}
    (h : tk ∈ (if c then [x] else ([] : List PyStr))) : tk = x := by
  by_cases hc : c
  · rw [if_pos hc] at h
    simpa using h
  · rw [if_neg hc] at h
    simp at h

theorem tok_clean_append {lit v : PyStr} (h1 : noWS lit = true) (h2 : ',' ∉ lit)
    (hv : noWS v = true) (hvc : ',' ∉ v) :
    noWS (lit ++ v) = true ∧ ',' ∉ lit ++ v := by
  constructor
  · rw [noWS_append, h1, hv]
    rfl
  · intro hm
    rcases List.mem_append.1 hm with h | h
    · exact h2 h
    · exact hvc h

theorem C1_opts_tokens (e : SshfsEntry) (toks : List PyStr)
    (hft : noWS e.fstype = true) (hft_c : ',' ∉ e.fstype)
    (huid : noWS e.uid = true) (huid_c : ',' ∉ e.uid)
    (hgid : noWS e.gid = true) (hgid_c : ',' ∉ e.gid)
    (hum : noWS e.umask = true) (hum_c : ',' ∉ e.umask)
    (htoks : ∀ tk ∈ toks, noWS tk = true ∧ ',' ∉ tk) :
    ∀ tk ∈ ((S "-fstype=" ++ e.fstype) ::
         ((if e.allow_other then [S "allow_other"] else []) ++
          ((if e.uid ≠ [] then [S "uid=" ++ e.uid] else []) ++
           ((if e.gid ≠ [] then [S "gid=" ++ e.gid] else []) ++
            ((if e.umask ≠ [] then [S "umask=" ++ e.umask] else []) ++
             ([S "ServerAliveInterval=" ++ pyIntToStr e.server_alive_interval] ++
              ([S "ServerAliveCountMax=" ++ pyIntToStr e.server_alive_count] ++
               ((if e.reconnect then [S "reconnect"] else []) ++
                ((if e.delay_connect then [S "delay_connect"] else []) ++
                 toks))))))))),
      noWS tk = true ∧ ',' ∉ tk := by
  intro tk htk
  rcases List.mem_cons.1 htk with h | htk2
  · rw [h]
    exact tok_clean_append (by decide) (by decide) hft hft_c
  rcases List.mem_append.1 htk2 with h | htk3
  · rw [mem_ite_singleton h]
    exact ⟨by decide, by decide⟩
  rcases List.mem_append.1 htk3 with h | htk4
  · rw [mem_ite_singleton h]
    exact tok_clean_append (by decide) (by decide) huid huid_c
  rcases List.mem_append.1 htk4 with h | htk5
  · rw [mem_ite_singleton h]
    exact tok_clean_append (by decide) (by decide) hgid hgid_c
  rcases List.mem_append.1 htk5 with h | htk6
  · rw [mem_ite_singleton h]
    exact tok_clean_append (by decide) (by decide) hum hum_c
  rcases List.mem_append.1 htk6 with h | htk7
  · rw [List.mem_singleton.1 h]
    exact tok_clean_append (by decide) (by decide) (noWS_pyIntToStr _)
      (comma_not_mem_pyIntToStr _)
  rcases List.mem_append.1 htk7 with h | htk8
  · rw [List.mem_singleton.1 h]
    exact tok_clean_append (by decide) (by decide) (noWS_pyIntToStr _)
      (comma_not_mem_pyIntToStr _)
  rcases List.mem_append.1 htk8 with h | htk9
  · rw [mem_ite_singleton h]
    exact ⟨by decide, by decide⟩
  rcases List.mem_append.1 htk9 with h | htk10
  · rw [mem_ite_singleton h]
    exact ⟨by decide, by decide⟩
  exact htoks tk htk10

theorem foldl_optStep_singleton (tok : PyStr) (rest : List PyStr) (acc acc' : OptAcc)
    (hstep : optStep acc tok = acc') :
    ([tok] ++ rest).foldl optStep acc = rest.foldl optStep acc' := by
  simp [hstep]

theorem C1_fold (e : SshfsEntry) (toks : List PyStr)
    (htoks : ∀ tk ∈ toks, specialOptTok tk = false) :
    ((if e.allow_other then [S "allow_other"] else []) ++
      ((if e.uid ≠ [] then [S "uid=" ++ e.uid] else []) ++
       ((if e.gid ≠ [] then [S "gid=" ++ e.gid] else []) ++
        ((if e.umask ≠ [] then [S "umask=" ++ e.umask] else []) ++
         ([S "ServerAliveInterval=" ++ pyIntToStr e.server_alive_interval] ++
          ([S "ServerAliveCountMax=" ++ pyIntToStr e.server_alive_count] ++
           ((if e.reconnect then [S "reconnect"] else []) ++
            ((if e.delay_connect then [S "delay_connect"] else []) ++
             toks)))))))).foldl optStep {}
    = { identity_file := [], allow_other := e.allow_other, uid := e.uid,
        gid := e.gid, umask := e.umask,
        sai := pyIntToStr e.server_alive_interval,
        sac := pyIntToStr e.server_alive_count,
        reconnect := e.reconnect, delay_connect := e.delay_connect,
        extra := toks } := by
  rw [foldl_optStep_condP _ _ _ _ _ (optStep_allow _)]
  rw [foldl_optStep_condP _ _ _ _ _ (optStep_uid _ _)]
  rw [foldl_optStep_condP _ _ _ _ _ (optStep_gid _ _)]
  rw [foldl_optStep_condP _ _ _ _ _ (optStep_umask _ _)]
  rw [foldl_optStep_singleton _ _ _ _ (optStep_sai _ _)]
  rw [foldl_optStep_singleton _ _ _ _ (optStep_sac _ _)]
  rw [foldl_optStep_condP _ _ _ _ _ (optStep_reconnect _)]
  rw [foldl_optStep_condP _ _ _ _ _ (optStep_delay _)]
  rw [foldl_optStep_neutral toks htoks]
  split_ifs <;> simp_all

theorem C1_parse_line (e : SshfsEntry) (toks : List PyStr)
    (hmp : noWS e.mount_point = true)
    (huser : noWS e.user = true) (huser_at : '@' ∉ e.user) (huser_col : ':' ∉ e.user)
    (hhost : noWS e.host = true) (hhost_at : '@' ∉ e.host) (hhost_col : ':' ∉ e.host)
    (hrp_bs : '\\' ∉ e.remote_path)
    (hft : noWS e.fstype = true) (hft_c : ',' ∉ e.fstype)
    (huid : noWS e.uid = true) (huid_c : ',' ∉ e.uid)
    (hgid : noWS e.gid = true) (hgid_c : ',' ∉ e.gid)
    (hum : noWS e.umask = true) (hum_c : ',' ∉ e.umask)
    (htoks : ∀ tk ∈ toks, tk ≠ [] ∧ noWS tk = true ∧ ',' ∉ tk ∧
      specialOptTok tk = false) :
    parseMapLine (e.mount_point ++ ' ' ::
        (pyJoinSep (S ",")
      ((S "-fstype=" ++ e.fstype) ::
      ((if e.allow_other then [S "allow_other"] else []) ++
      ((if e.uid ≠ [] then [S "uid=" ++ e.uid] else []) ++
       ((if e.gid ≠ [] then [S "gid=" ++ e.gid] else []) ++
        ((if e.umask ≠ [] then [S "umask=" ++ e.umask] else []) ++
         ([S "ServerAliveInterval=" ++ pyIntToStr e.server_alive_interval] ++
          ([S "ServerAliveCountMax=" ++ pyIntToStr e.server_alive_count] ++
           ((if e.reconnect then [S "reconnect"] else []) ++
            ((if e.delay_connect then [S "delay_connect"] else []) ++
             toks))))))))) ++ ' ' :: (':' :: ((if e.user ≠ [] then e.user ++ ['@'] else []) ++ (e.host ++ ':' :: escape_spaces e.remote_path)))))
      = some { mount_point := e.mount_point, user := e.user, host := e.host,
               remote_path := e.remote_path, fstype := e.fstype, identity_file := [],
               allow_other := e.allow_other, uid := e.uid, gid := e.gid,
               umask := e.umask, server_alive_interval := e.server_alive_interval,
               server_alive_count := e.server_alive_count, reconnect := e.reconnect,
               delay_connect := e.delay_connect,
               extra_options := pyJoinSep (S ",") toks } := by
  have hXne : ((if e.allow_other then [S "allow_other"] else []) ++
      ((if e.uid ≠ [] then [S "uid=" ++ e.uid] else []) ++
       ((if e.gid ≠ [] then [S "gid=" ++ e.gid] else []) ++
        ((if e.umask ≠ [] then [S "umask=" ++ e.umask] else []) ++
         ([S "ServerAliveInterval=" ++ pyIntToStr e.server_alive_interval] ++
          ([S "ServerAliveCountMax=" ++ pyIntToStr e.server_alive_count] ++
           ((if e.reconnect then [S "reconnect"] else []) ++
            ((if e.delay_connect then [S "delay_connect"] else []) ++
             toks)))))))) ≠ [] := by simp
  have htokclean := C1_opts_tokens e toks hft hft_c huid huid_c hgid hgid_c hum hum_c
    (fun tk m => ⟨(htoks tk m).2.1, (htoks tk m).2.2.1⟩)
  have hmpsp : ' ' ∉ e.mount_point := noWS_no_space hmp
  have husp : ' ' ∉ e.user := noWS_no_space huser
  have hhsp : ' ' ∉ e.host := noWS_no_space hhost
  have hRsp : ' ' ∉ (':' :: ((if e.user ≠ [] then e.user ++ ['@'] else []) ++ (e.host ++ ':' :: escape_spaces e.remote_path))) := by
    intro hm
    rcases List.mem_cons.1 hm with h | hm2
    · exact absurd h (by decide)
    rcases List.mem_append.1 hm2 with h | hm3
    · by_cases hu : e.user ≠ []
      · rw [if_pos hu] at h
        rcases List.mem_append.1 h with h2 | h2
        · exact husp h2
        · exact absurd (List.mem_singleton.1 h2) (by decide)
      · rw [if_neg hu] at h
        simp at h
    rcases List.mem_append.1 hm3 with h | hm4
    · exact hhsp h
    rcases List.mem_cons.1 hm4 with h | hm5
    · exact absurd h (by decide)
    · exact escape_spaces_no_space _ hm5
  have h1 : pySplitFirst ' ' (e.mount_point ++ ' ' ::
        (pyJoinSep (S ",")
      ((S "-fstype=" ++ e.fstype) ::
      ((if e.allow_other then [S "allow_other"] else []) ++
      ((if e.uid ≠ [] then [S "uid=" ++ e.uid] else []) ++
       ((if e.gid ≠ [] then [S "gid=" ++ e.gid] else []) ++
        ((if e.umask ≠ [] then [S "umask=" ++ e.umask] else []) ++
         ([S "ServerAliveInterval=" ++ pyIntToStr e.server_alive_interval] ++
          ([S "ServerAliveCountMax=" ++ pyIntToStr e.server_alive_count] ++
           ((if e.reconnect then [S "reconnect"] else []) ++
            ((if e.delay_connect then [S "delay_connect"] else []) ++
             toks))))))))) ++ ' ' :: (':' :: ((if e.user ≠ [] then e.user ++ ['@'] else []) ++ (e.host ++ ':' :: escape_spaces e.remote_path)))))
      = some (e.mount_point, pyJoinSep (S ",")
      ((S "-fstype=" ++ e.fstype) ::
      ((if e.allow_other then [S "allow_other"] else []) ++
      ((if e.uid ≠ [] then [S "uid=" ++ e.uid] else []) ++
       ((if e.gid ≠ [] then [S "gid=" ++ e.gid] else []) ++
        ((if e.umask ≠ [] then [S "umask=" ++ e.umask] else []) ++
         ([S "ServerAliveInterval=" ++ pyIntToStr e.server_alive_interval] ++
          ([S "ServerAliveCountMax=" ++ pyIntToStr e.server_alive_count] ++
           ((if e.reconnect then [S "reconnect"] else []) ++
            ((if e.delay_connect then [S "delay_connect"] else []) ++
             toks))))))))) ++ ' ' :: (':' :: ((if e.user ≠ [] then e.user ++ ['@'] else []) ++ (e.host ++ ':' :: escape_spaces e.remote_path)))) :=
    pySplitFirst_eq ' ' _ _ hmpsp
  have h2 : pyRSplitLast ' ' (pyJoinSep (S ",")
      ((S "-fstype=" ++ e.fstype) ::
      ((if e.allow_other then [S "allow_other"] else []) ++
      ((if e.uid ≠ [] then [S "uid=" ++ e.uid] else []) ++
       ((if e.gid ≠ [] then [S "gid=" ++ e.gid] else []) ++
        ((if e.umask ≠ [] then [S "umask=" ++ e.umask] else []) ++
         ([S "ServerAliveInterval=" ++ pyIntToStr e.server_alive_interval] ++
          ([S "ServerAliveCountMax=" ++ pyIntToStr e.server_alive_count] ++
           ((if e.reconnect then [S "reconnect"] else []) ++
            ((if e.delay_connect then [S "delay_connect"] else []) ++
             toks))))))))) ++ ' ' :: (':' :: ((if e.user ≠ [] then e.user ++ ['@'] else []) ++ (e.host ++ ':' :: escape_spaces e.remote_path))))
      = some (pyJoinSep (S ",")
      ((S "-fstype=" ++ e.fstype) ::
      ((if e.allow_other then [S "allow_other"] else []) ++
      ((if e.uid ≠ [] then [S "uid=" ++ e.uid] else []) ++
       ((if e.gid ≠ [] then [S "gid=" ++ e.gid] else []) ++
        ((if e.umask ≠ [] then [S "umask=" ++ e.umask] else []) ++
         ([S "ServerAliveInterval=" ++ pyIntToStr e.server_alive_interval] ++
          ([S "ServerAliveCountMax=" ++ pyIntToStr e.server_alive_count] ++
           ((if e.reconnect then [S "reconnect"] else []) ++
            ((if e.delay_connect then [S "delay_connect"] else []) ++
             toks))))))))), (':' :: ((if e.user ≠ [] then e.user ++ ['@'] else []) ++ (e.host ++ ':' :: escape_spaces e.remote_path)))) :=
    pyRSplitLast_eq ' ' _ _ hRsp
  have h3 : pyIsPre (S "-fstype=") (pyJoinSep (S ",")
      ((S "-fstype=" ++ e.fstype) ::
      ((if e.allow_other then [S "allow_other"] else []) ++
      ((if e.uid ≠ [] then [S "uid=" ++ e.uid] else []) ++
       ((if e.gid ≠ [] then [S "gid=" ++ e.gid] else []) ++
        ((if e.umask ≠ [] then [S "umask=" ++ e.umask] else []) ++
         ([S "ServerAliveInterval=" ++ pyIntToStr e.server_alive_interval] ++
          ([S "ServerAliveCountMax=" ++ pyIntToStr e.server_alive_count] ++
           ((if e.reconnect then [S "reconnect"] else []) ++
            ((if e.delay_connect then [S "delay_connect"] else []) ++
             toks)))))))))) = true := by
    rw [pyJoinSep_cons_ne _ _ hXne, List.append_assoc, List.append_assoc]
    exact pyIsPre_refl_append _ _
  have h4 : pySplitAll ',' (pyJoinSep (S ",")
      ((S "-fstype=" ++ e.fstype) ::
      ((if e.allow_other then [S "allow_other"] else []) ++
      ((if e.uid ≠ [] then [S "uid=" ++ e.uid] else []) ++
       ((if e.gid ≠ [] then [S "gid=" ++ e.gid] else []) ++
        ((if e.umask ≠ [] then [S "umask=" ++ e.umask] else []) ++
         ([S "ServerAliveInterval=" ++ pyIntToStr e.server_alive_interval] ++
          ([S "ServerAliveCountMax=" ++ pyIntToStr e.server_alive_count] ++
           ((if e.reconnect then [S "reconnect"] else []) ++
            ((if e.delay_connect then [S "delay_connect"] else []) ++
             toks)))))))))) = ((S "-fstype=" ++ e.fstype) ::
      ((if e.allow_other then [S "allow_other"] else []) ++
      ((if e.uid ≠ [] then [S "uid=" ++ e.uid] else []) ++
       ((if e.gid ≠ [] then [S "gid=" ++ e.gid] else []) ++
        ((if e.umask ≠ [] then [S "umask=" ++ e.umask] else []) ++
         ([S "ServerAliveInterval=" ++ pyIntToStr e.server_alive_interval] ++
          ([S "ServerAliveCountMax=" ++ pyIntToStr e.server_alive_count] ++
           ((if e.reconnect then [S "reconnect"] else []) ++
            ((if e.delay_connect then [S "delay_connect"] else []) ++
             toks))))))))) := by
    rw [show (S ",") = [','] from by decide]
    exact pySplitAll_joinSep ',' _ (by simp)
      (fun t m => (htokclean t m).2)
  have h6 : pySplitFirst '=' (S "-fstype=" ++ e.fstype)
      = some (S "-fstype", e.fstype) := by
    rw [show (S "-fstype=" ++ e.fstype) = S "-fstype" ++ '=' :: e.fstype from by
      rw [show S "-fstype=" = S "-fstype" ++ ['='] from by decide, List.append_assoc]
      rfl]
    exact pySplitFirst_eq '=' _ _ (by decide)
  have h8 := C1_fold e toks (fun tk m => (htoks tk m).2.2.2)
  have h9 : pyIsPre (S ":") ((':' :: ((if e.user ≠ [] then e.user ++ ['@'] else []) ++ (e.host ++ ':' :: escape_spaces e.remote_path)))) = true := by
    rw [show (S ":") = [':'] from by decide]
    simp [pyIsPre]
  have h14 : pyReplace (S "\\040") (S " ") (escape_spaces e.remote_path)
      = e.remote_path := unescape_escape hrp_bs
  by_cases hu : e.user = []
  · have hRB : ((if e.user ≠ [] then e.user ++ ['@'] else []) ++ (e.host ++ ':' :: escape_spaces e.remote_path)) = e.host ++ ':' :: escape_spaces e.remote_path := by
      rw [if_neg (by simp [hu])]
      simp
    have h10 : pySplitFirst ':' (((if e.user ≠ [] then e.user ++ ['@'] else []) ++ (e.host ++ ':' :: escape_spaces e.remote_path)))
        = some (e.host, escape_spaces e.remote_path) := by
      rw [hRB]
      exact pySplitFirst_eq ':' _ _ hhost_col
    have h11 : pyHasChar e.host '@' = false := (pyHasChar_false_iff _ _).2 hhost_at
    simp only [parseMapLine, h1, h2, h3, h4, h6, h8, h9, h10, h11, h14,
      Option.bind_eq_bind, Option.some_bind, List.head?_cons, List.tail_cons,
      pyInt_pyIntToStr, if_true, if_false]
    simp [hu, pyIntToStr_ne_nil]
  · have hRB : ((if e.user ≠ [] then e.user ++ ['@'] else []) ++ (e.host ++ ':' :: escape_spaces e.remote_path)) = (e.user ++ '@' :: e.host) ++ ':' :: escape_spaces e.remote_path := by
      rw [if_pos hu]
      simp
    have h10 : pySplitFirst ':' (((if e.user ≠ [] then e.user ++ ['@'] else []) ++ (e.host ++ ':' :: escape_spaces e.remote_path)))
        = some (e.user ++ '@' :: e.host, escape_spaces e.remote_path) := by
      rw [hRB]
      refine pySplitFirst_eq ':' _ _ ?_
      intro hm
      rcases List.mem_append.1 hm with h | h
      · exact huser_col h
      · rcases List.mem_cons.1 h with h2 | h2
        · exact absurd h2 (by decide)
        · exact hhost_col h2
    have h11 : pyHasChar (e.user ++ '@' :: e.host) '@' = true :=
      (pyHasChar_iff _ _).2 (List.mem_append_right _ (List.mem_cons_self _ _))
    have h12 : pySplitFirst '@' (((if e.user ≠ [] then e.user ++ ['@'] else []) ++ (e.host ++ ':' :: escape_spaces e.remote_path)))
        = some (e.user, e.host ++ ':' :: escape_spaces e.remote_path) := by
      rw [show ((if e.user ≠ [] then e.user ++ ['@'] else []) ++ (e.host ++ ':' :: escape_spaces e.remote_path)) = e.user ++ '@' :: (e.host ++ ':' :: escape_spaces e.remote_path) from by
        rw [if_pos hu]
        simp]
      exact pySplitFirst_eq '@' _ _ huser_at
    have h13 : pySplitFirst ':' (e.host ++ ':' :: escape_spaces e.remote_path)
        = some (e.host, escape_spaces e.remote_path) :=
      pySplitFirst_eq ':' _ _ hhost_col
    simp only [parseMapLine, h1, h2, h3, h4, h6, h8, h9, h10, h11, h12, h13, h14,
      Option.bind_eq_bind, Option.some_bind, List.head?_cons, List.tail_cons,
      pyInt_pyIntToStr, if_true, if_false]
    simp [pyIntToStr_ne_nil]

theorem getLast?_chain (x : PyStr) (c : Char) {y : PyStr} (h : y ≠ []) :
    (x ++ c :: y).getLast? = y.getLast? := by
  rw [show x ++ c :: y = (x ++ [c]) ++ y from by simp, getLast?_append_right _ h]

theorem getLast?_cons_ne (c : Char) {y : PyStr} (h : y ≠ []) :
    (c :: y).getLast? = y.getLast? := by
  rw [show c :: y = [c] ++ y from rfl, getLast?_append_right _ h]

theorem lineSafe_of_forall {s : PyStr} (h : ∀ c ∈ s, isLineSep c = false) :
    lineSafe s = true := by
  refine List.all_eq_true.2 ?_
  intro c hc
  simp [h c hc]

theorem lineSafe_all {s : PyStr} (h : lineSafe s = true) :
    ∀ c ∈ s, isLineSep c = false := by
  intro c hc
  have := List.all_eq_true.1 h c hc
  simpa using this

theorem lineSafe_joinSep {ts : List PyStr} (h : ∀ t ∈ ts, noWS t = true) :
    lineSafe (pyJoinSep (S ",") ts) = true := by
  refine lineSafe_of_forall ?_
  intro c hc
  rcases pyJoinSep_chars (S ",") ts c hc with hs | ⟨t, ht, hct⟩
  · rw [show (S ",") = [','] from by decide] at hs
    rw [List.mem_singleton.1 hs]
    decide
  · have hns := noWS_all (h t ht) c hct
    cases hl : isLineSep c with
    | false => rfl
    | true =>
      rw [isLineSep_isSpace hl] at hns
      cases hns

theorem lineSafe_escape {s : PyStr} (h : lineSafe s = true) :
    lineSafe (escape_spaces s) = true := by
  refine lineSafe_of_forall ?_
  intro c hc
  rcases escape_spaces_chars c hc with hs | rfl | rfl | rfl
  · exact lineSafe_all h c hs
  · decide
  · decide
  · decide

theorem parse_map_text_single {line : PyStr} {p : ParsedEntry}
    (hne : line ≠ []) (hls : lineSafe line = true)
    (hstrip : pyStrip line = line)
    (hnotc : pyIsPre (S "#") line = false)
    (hparse : parseMapLine line = some p) :
    parse_map_text line = [p] := by
  have hentry : lineEntry line = some p := by
    unfold lineEntry
    rw [hstrip, if_neg hne, hnotc]
    simp [hparse]
  unfold parse_map_text
  rw [if_neg hne, pySplitlines_noSep hne hls, List.filterMap_cons, hentry]
  rfl

/-- C1 (amended): the round trip holds for valid entries whose fields are
additionally clean for the line format: no whitespace in mount_point, user,
host, fstype, uid, gid and umask; no `@` or `:` in user and host; remote_path
non-empty, already trimmed, free of line separators and of backslashes;
fstype non-empty and comma-free; identity_file empty; uid, gid, umask
comma-free; extra_options trimmed, and its comma-split cleaned tokens all
non-empty, whitespace-free, comma-free and not special-cased by the parser.
Then building the map line and parsing the one-line text yields exactly one
entry with all fourteen scalar fields equal to the original and
extra_options equal to the comma-join of the cleaned tokens. -/
theorem C1_round_trip (pe : PyStr → Bool) (e : SshfsEntry) (toks : List PyStr)
    (hval : validate_entry (sshfs_entry_to_dict e) = true)
    (hmp_slash : pyIsPre (S "/") e.mount_point = true)
    (hmp : noWS e.mount_point = true)
    (huser : noWS e.user = true) (huser_at : '@' ∉ e.user) (huser_col : ':' ∉ e.user)
    (hh_ne : e.host ≠ []) (hhost : noWS e.host = true)
    (hhost_at : '@' ∉ e.host) (hhost_col : ':' ∉ e.host)
    (hrp_ne : e.remote_path ≠ []) (hrp_strip : pyStrip e.remote_path = e.remote_path)
    (hrp_ls : lineSafe e.remote_path = true) (hrp_bs : '\\' ∉ e.remote_path)
    (hft : noWS e.fstype = true) (hft_ne : e.fstype ≠ []) (hft_c : ',' ∉ e.fstype)
    (hid : e.identity_file = [])
    (huid : noWS e.uid = true) (huid_c : ',' ∉ e.uid)
    (hgid : noWS e.gid = true) (hgid_c : ',' ∉ e.gid)
    (hum : noWS e.umask = true) (hum_c : ',' ∉ e.umask)
    (hex1 : pyStrip e.extra_options = e.extra_options)
    (hex2 : ((pySplitAll ',' e.extra_options).map pyStrip).filter
      (fun tok => tok ≠ []) = toks)
    (htoks : ∀ tk ∈ toks, tk ≠ [] ∧ noWS tk = true ∧ ',' ∉ tk ∧
      specialOptTok tk = false) :
    ∃ line, build_map_line pe (sshfs_entry_to_dict e) = some line ∧
      parse_map_text line =
        [{ mount_point := e.mount_point, user := e.user, host := e.host,
               remote_path := e.remote_path, fstype := e.fstype, identity_file := [],
               allow_other := e.allow_other, uid := e.uid, gid := e.gid,
               umask := e.umask, server_alive_interval := e.server_alive_interval,
               server_alive_count := e.server_alive_count, reconnect := e.reconnect,
               delay_connect := e.delay_connect,
               extra_options := pyJoinSep (S ",") toks }] := by
  obtain ⟨mrest, hmpe⟩ := (pyIsPre_eq_iff (S "/") e.mount_point).1 hmp_slash
  rw [show (S "/") = ['/'] from by decide, List.singleton_append] at hmpe
  have hmp_ne : e.mount_point ≠ [] := by rw [hmpe]; simp
  refine ⟨_, C1_build_eq pe e toks hmp_ne hh_ne hrp_ne hmp huser hhost hrp_strip
    hft hft_ne hid huid hgid hum hex1 hex2, ?_⟩
  have hline := C1_parse_line e toks hmp huser huser_at huser_col hhost hhost_at
    hhost_col hrp_bs hft hft_c huid huid_c hgid hgid_c hum hum_c htoks
  have hne : (e.mount_point ++ ' ' ::
        (pyJoinSep (S ",")
      ((S "-fstype=" ++ e.fstype) ::
      ((if e.allow_other then [S "allow_other"] else []) ++
      ((if e.uid ≠ [] then [S "uid=" ++ e.uid] else []) ++
       ((if e.gid ≠ [] then [S "gid=" ++ e.gid] else []) ++
        ((if e.umask ≠ [] then [S "umask=" ++ e.umask] else []) ++
         ([S "ServerAliveInterval=" ++ pyIntToStr e.server_alive_interval] ++
          ([S "ServerAliveCountMax=" ++ pyIntToStr e.server_alive_count] ++
           ((if e.reconnect then [S "reconnect"] else []) ++
            ((if e.delay_connect then [S "delay_connect"] else []) ++
             toks))))))))) ++ ' ' :: (':' :: ((if e.user ≠ [] then e.user ++ ['@'] else []) ++ (e.host ++ ':' :: escape_spaces e.remote_path))))) ≠ [] := by
    rw [hmpe]
    simp
  have hUB : lineSafe (if e.user ≠ [] then e.user ++ ['@'] else []) = true := by
    split_ifs with hu
    · rw [lineSafe_append, noWS_lineSafe huser]
      decide
    · decide
  have hJ : lineSafe (pyJoinSep (S ",")
      ((S "-fstype=" ++ e.fstype) ::
      ((if e.allow_other then [S "allow_other"] else []) ++
      ((if e.uid ≠ [] then [S "uid=" ++ e.uid] else []) ++
       ((if e.gid ≠ [] then [S "gid=" ++ e.gid] else []) ++
        ((if e.umask ≠ [] then [S "umask=" ++ e.umask] else []) ++
         ([S "ServerAliveInterval=" ++ pyIntToStr e.server_alive_interval] ++
          ([S "ServerAliveCountMax=" ++ pyIntToStr e.server_alive_count] ++
           ((if e.reconnect then [S "reconnect"] else []) ++
            ((if e.delay_connect then [S "delay_connect"] else []) ++
             toks)))))))))) = true :=
    lineSafe_joinSep (fun t ht =>
      (C1_opts_tokens e toks hft hft_c huid huid_c hgid hgid_c hum hum_c
        (fun tk m => ⟨(htoks tk m).2.1, (htoks tk m).2.2.1⟩) t ht).1)
  have hls : lineSafe (e.mount_point ++ ' ' ::
        (pyJoinSep (S ",")
      ((S "-fstype=" ++ e.fstype) ::
      ((if e.allow_other then [S "allow_other"] else []) ++
      ((if e.uid ≠ [] then [S "uid=" ++ e.uid] else []) ++
       ((if e.gid ≠ [] then [S "gid=" ++ e.gid] else []) ++
        ((if e.umask ≠ [] then [S "umask=" ++ e.umask] else []) ++
         ([S "ServerAliveInterval=" ++ pyIntToStr e.server_alive_interval] ++
          ([S "ServerAliveCountMax=" ++ pyIntToStr e.server_alive_count] ++
           ((if e.reconnect then [S "reconnect"] else []) ++
            ((if e.delay_connect then [S "delay_connect"] else []) ++
             toks))))))))) ++ ' ' :: (':' :: ((if e.user ≠ [] then e.user ++ ['@'] else []) ++ (e.host ++ ':' :: escape_spaces e.remote_path))))) = true := by
    simp only [lineSafe_append, lineSafe_cons]
    rw [noWS_lineSafe hmp, hJ, hUB, noWS_lineSafe hhost, lineSafe_escape hrp_ls]
    decide
  have hene : escape_spaces e.remote_path ≠ [] := escape_spaces_ne_nil hrp_ne
  obtain ⟨c0, hc0⟩ : ∃ c, e.remote_path.getLast? = some c := by
    cases hr : e.remote_path.reverse with
    | nil => exact absurd (List.reverse_eq_nil_iff.1 hr) hrp_ne
    | cons a t =>
      refine ⟨a, ?_⟩
      rw [← List.head?_reverse, hr, List.head?_cons]
  have hc0ns : pyIsSpace c0 = false := by
    have h2 := (strip_id_ends hrp_strip).2
    rw [hc0] at h2
    simpa using h2
  have hc0sp : c0 ≠ ' ' := by
    intro h
    rw [h] at hc0ns
    exact absurd hc0ns (by decide)
  have hesc : (escape_spaces e.remote_path).getLast? = some c0 :=
    escape_spaces_getLast hc0 hc0sp
  have g1 : ((e.mount_point ++ ' ' ::
        (pyJoinSep (S ",")
      ((S "-fstype=" ++ e.fstype) ::
      ((if e.allow_other then [S "allow_other"] else []) ++
      ((if e.uid ≠ [] then [S "uid=" ++ e.uid] else []) ++
       ((if e.gid ≠ [] then [S "gid=" ++ e.gid] else []) ++
        ((if e.umask ≠ [] then [S "umask=" ++ e.umask] else []) ++
         ([S "ServerAliveInterval=" ++ pyIntToStr e.server_alive_interval] ++
          ([S "ServerAliveCountMax=" ++ pyIntToStr e.server_alive_count] ++
           ((if e.reconnect then [S "reconnect"] else []) ++
            ((if e.delay_connect then [S "delay_connect"] else []) ++
             toks))))))))) ++ ' ' :: (':' :: ((if e.user ≠ [] then e.user ++ ['@'] else []) ++ (e.host ++ ':' :: escape_spaces e.remote_path)))))).getLast?
      = ((pyJoinSep (S ",")
      ((S "-fstype=" ++ e.fstype) ::
      ((if e.allow_other then [S "allow_other"] else []) ++
      ((if e.uid ≠ [] then [S "uid=" ++ e.uid] else []) ++
       ((if e.gid ≠ [] then [S "gid=" ++ e.gid] else []) ++
        ((if e.umask ≠ [] then [S "umask=" ++ e.umask] else []) ++
         ([S "ServerAliveInterval=" ++ pyIntToStr e.server_alive_interval] ++
          ([S "ServerAliveCountMax=" ++ pyIntToStr e.server_alive_count] ++
           ((if e.reconnect then [S "reconnect"] else []) ++
            ((if e.delay_connect then [S "delay_connect"] else []) ++
             toks))))))))) ++ ' ' :: (':' :: ((if e.user ≠ [] then e.user ++ ['@'] else []) ++ (e.host ++ ':' :: escape_spaces e.remote_path))))).getLast? :=
    getLast?_chain _ _ (by simp)
  have g2 : ((pyJoinSep (S ",")
      ((S "-fstype=" ++ e.fstype) ::
      ((if e.allow_other then [S "allow_other"] else []) ++
      ((if e.uid ≠ [] then [S "uid=" ++ e.uid] else []) ++
       ((if e.gid ≠ [] then [S "gid=" ++ e.gid] else []) ++
        ((if e.umask ≠ [] then [S "umask=" ++ e.umask] else []) ++
         ([S "ServerAliveInterval=" ++ pyIntToStr e.server_alive_interval] ++
          ([S "ServerAliveCountMax=" ++ pyIntToStr e.server_alive_count] ++
           ((if e.reconnect then [S "reconnect"] else []) ++
            ((if e.delay_connect then [S "delay_connect"] else []) ++
             toks))))))))) ++ ' ' :: (':' :: ((if e.user ≠ [] then e.user ++ ['@'] else []) ++ (e.host ++ ':' :: escape_spaces e.remote_path))))).getLast?
      = ((':' :: ((if e.user ≠ [] then e.user ++ ['@'] else []) ++ (e.host ++ ':' :: escape_spaces e.remote_path)))).getLast? :=
    getLast?_chain _ _ (by simp)
  have g3 : ((':' :: ((if e.user ≠ [] then e.user ++ ['@'] else []) ++ (e.host ++ ':' :: escape_spaces e.remote_path)))).getLast? = (((if e.user ≠ [] then e.user ++ ['@'] else []) ++ (e.host ++ ':' :: escape_spaces e.remote_path))).getLast? :=
    getLast?_cons_ne _ (by simp)
  have g4 : (((if e.user ≠ [] then e.user ++ ['@'] else []) ++ (e.host ++ ':' :: escape_spaces e.remote_path))).getLast?
      = (e.host ++ ':' :: escape_spaces e.remote_path).getLast? :=
    getLast?_append_right _ (by simp)
  have g5 : (e.host ++ ':' :: escape_spaces e.remote_path).getLast?
      = (escape_spaces e.remote_path).getLast? :=
    getLast?_chain _ _ hene
  have hlast : ((e.mount_point ++ ' ' ::
        (pyJoinSep (S ",")
      ((S "-fstype=" ++ e.fstype) ::
      ((if e.allow_other then [S "allow_other"] else []) ++
      ((if e.uid ≠ [] then [S "uid=" ++ e.uid] else []) ++
       ((if e.gid ≠ [] then [S "gid=" ++ e.gid] else []) ++
        ((if e.umask ≠ [] then [S "umask=" ++ e.umask] else []) ++
         ([S "ServerAliveInterval=" ++ pyIntToStr e.server_alive_interval] ++
          ([S "ServerAliveCountMax=" ++ pyIntToStr e.server_alive_count] ++
           ((if e.reconnect then [S "reconnect"] else []) ++
            ((if e.delay_connect then [S "delay_connect"] else []) ++
             toks))))))))) ++ ' ' :: (':' :: ((if e.user ≠ [] then e.user ++ ['@'] else []) ++ (e.host ++ ':' :: escape_spaces e.remote_path)))))).getLast? = some c0 :=
    (g1.trans (g2.trans (g3.trans (g4.trans g5)))).trans hesc
  have hstrip : pyStrip (e.mount_point ++ ' ' ::
        (pyJoinSep (S ",")
      ((S "-fstype=" ++ e.fstype) ::
      ((if e.allow_other then [S "allow_other"] else []) ++
      ((if e.uid ≠ [] then [S "uid=" ++ e.uid] else []) ++
       ((if e.gid ≠ [] then [S "gid=" ++ e.gid] else []) ++
        ((if e.umask ≠ [] then [S "umask=" ++ e.umask] else []) ++
         ([S "ServerAliveInterval=" ++ pyIntToStr e.server_alive_interval] ++
          ([S "ServerAliveCountMax=" ++ pyIntToStr e.server_alive_count] ++
           ((if e.reconnect then [S "reconnect"] else []) ++
            ((if e.delay_connect then [S "delay_connect"] else []) ++
             toks))))))))) ++ ' ' :: (':' :: ((if e.user ≠ [] then e.user ++ ['@'] else []) ++ (e.host ++ ':' :: escape_spaces e.remote_path))))) = (e.mount_point ++ ' ' ::
        (pyJoinSep (S ",")
      ((S "-fstype=" ++ e.fstype) ::
      ((if e.allow_other then [S "allow_other"] else []) ++
      ((if e.uid ≠ [] then [S "uid=" ++ e.uid] else []) ++
       ((if e.gid ≠ [] then [S "gid=" ++ e.gid] else []) ++
        ((if e.umask ≠ [] then [S "umask=" ++ e.umask] else []) ++
         ([S "ServerAliveInterval=" ++ pyIntToStr e.server_alive_interval] ++
          ([S "ServerAliveCountMax=" ++ pyIntToStr e.server_alive_count] ++
           ((if e.reconnect then [S "reconnect"] else []) ++
            ((if e.delay_connect then [S "delay_connect"] else []) ++
             toks))))))))) ++ ' ' :: (':' :: ((if e.user ≠ [] then e.user ++ ['@'] else []) ++ (e.host ++ ':' :: escape_spaces e.remote_path))))) := by
    refine pyStrip_eq_self ?_ ?_
    · rw [hmpe, List.cons_append, List.head?_cons]
      decide
    · rw [hlast]
      simp [hc0ns]
  have hnotc : pyIsPre (S "#") (e.mount_point ++ ' ' ::
        (pyJoinSep (S ",")
      ((S "-fstype=" ++ e.fstype) ::
      ((if e.allow_other then [S "allow_other"] else []) ++
      ((if e.uid ≠ [] then [S "uid=" ++ e.uid] else []) ++
       ((if e.gid ≠ [] then [S "gid=" ++ e.gid] else []) ++
        ((if e.umask ≠ [] then [S "umask=" ++ e.umask] else []) ++
         ([S "ServerAliveInterval=" ++ pyIntToStr e.server_alive_interval] ++
          ([S "ServerAliveCountMax=" ++ pyIntToStr e.server_alive_count] ++
           ((if e.reconnect then [S "reconnect"] else []) ++
            ((if e.delay_connect then [S "delay_connect"] else []) ++
             toks))))))))) ++ ' ' :: (':' :: ((if e.user ≠ [] then e.user ++ ['@'] else []) ++ (e.host ++ ':' :: escape_spaces e.remote_path))))) = false := by
    rw [hmpe, List.cons_append, show (S "#") = ['#'] from by decide]
    simp [pyIsPre]
  have hshape : (e.mount_point ++ ' ' :: pyJoinSep (S ",")
        ([S "-fstype=" ++ e.fstype] ++
         (if e.allow_other then [S "allow_other"] else []) ++
         (if e.uid ≠ [] then [S "uid=" ++ e.uid] else []) ++
         (if e.gid ≠ [] then [S "gid=" ++ e.gid] else []) ++
         (if e.umask ≠ [] then [S "umask=" ++ e.umask] else []) ++
         [S "ServerAliveInterval=" ++ pyIntToStr e.server_alive_interval] ++
         [S "ServerAliveCountMax=" ++ pyIntToStr e.server_alive_count] ++
         (if e.reconnect then [S "reconnect"] else []) ++
         (if e.delay_connect then [S "delay_connect"] else []) ++ toks)
      ++ ' ' :: (':' :: ((if e.user ≠ [] then e.user ++ ['@'] else []) ++ e.host ++
         ':' :: escape_spaces e.remote_path)))
      = (e.mount_point ++ ' ' ::
        (pyJoinSep (S ",")
      ((S "-fstype=" ++ e.fstype) ::
      ((if e.allow_other then [S "allow_other"] else []) ++
      ((if e.uid ≠ [] then [S "uid=" ++ e.uid] else []) ++
       ((if e.gid ≠ [] then [S "gid=" ++ e.gid] else []) ++
        ((if e.umask ≠ [] then [S "umask=" ++ e.umask] else []) ++
         ([S "ServerAliveInterval=" ++ pyIntToStr e.server_alive_interval] ++
          ([S "ServerAliveCountMax=" ++ pyIntToStr e.server_alive_count] ++
           ((if e.reconnect then [S "reconnect"] else []) ++
            ((if e.delay_connect then [S "delay_connect"] else []) ++
             toks))))))))) ++ ' ' :: (':' :: ((if e.user ≠ [] then e.user ++ ['@'] else []) ++ (e.host ++ ':' :: escape_spaces e.remote_path))))) := by
    simp only [List.append_assoc, List.cons_append, List.singleton_append,
      List.nil_append]
  rw [hshape]
  exact parse_map_text_single hne hls hstrip hnotc hline

set_option maxRecDepth 8192 in
theorem C1_round_trip_witness :
    ∃ line, build_map_line (fun _ => false) (sshfs_entry_to_dict
      { mount_point := S "/mnt/data", user := S "bob", host := S "server",
        remote_path := S "/srv/my data", fstype := S "fuse.sshfs",
        identity_file := [], allow_other := true, uid := S "1000",
        gid := S "1000", umask := S "022", server_alive_interval := 15,
        server_alive_count := 3, reconnect := true, delay_connect := true,
        extra_options := S "cache=yes,noatime" }) = some line ∧
      parse_map_text line =
        [{ mount_point := S "/mnt/data", user := S "bob", host := S "server",
           remote_path := S "/srv/my data", fstype := S "fuse.sshfs",
           identity_file := [], allow_other := true, uid := S "1000",
           gid := S "1000", umask := S "022", server_alive_interval := 15,
           server_alive_count := 3, reconnect := true, delay_connect := true,
           extra_options := pyJoinSep (S ",") [S "cache=yes", S "noatime"] }] :=
  C1_round_trip (fun _ => false)
    { mount_point := S "/mnt/data", user := S "bob", host := S "server",
      remote_path := S "/srv/my data", fstype := S "fuse.sshfs",
      identity_file := [], allow_other := true, uid := S "1000",
      gid := S "1000", umask := S "022", server_alive_interval := 15,
      server_alive_count := 3, reconnect := true, delay_connect := true,
      extra_options := S "cache=yes,noatime" }
    [S "cache=yes", S "noatime"]
    (by decide) (by decide) (by decide) (by decide) (by decide) (by decide)
    (by decide) (by decide) (by decide) (by decide) (by decide) (by decide)
    (by decide) (by decide) (by decide) (by decide) (by decide) (by decide)
    (by decide) (by decide) (by decide) (by decide) (by decide) (by decide)
    (by decide) (by decide) (by decide)
